import Mathlib

/-!
# websocket-playground: the echo session and the configuration loader

A shallow embedding of `internal/handler/websocket.go` and
`internal/config/config.go`.

* Go byte strings (`string`, `[]byte`) are Lean `String`s; the length in bytes
  is `String.utf8ByteSize`.
* `time.Duration` values are integers counting nanoseconds.
* The session (`HandleWebSocket`, `readPump`, `writePump`, the channel
  `send`, the connection) is a transition system: one `Event` is one atomic
  action of one goroutine, and an interleaving is a list of events.
* Logging (`logrus`) has no effect on the session and is left out.
-/

namespace config

/-! ## internal/config/config.go -/

/-- The process environment: the value of a variable, `none` when unset. -/
abbrev Env := String → Option String

/-- Go `os.Getenv`: the value of the variable, empty when it is unset. -/
def Getenv (env : Env) (key : String) : String :=
  (env key).getD ""

/-- The error values of `strconv.Atoi`. -/
inductive NumError where
  | ErrSyntax
  | ErrRange
  deriving DecidableEq, Repr

/-- Value of a run of decimal digits, most significant first; `none` when a
character is not one of `0` .. `9`. -/
def parseDigits : List Char → Nat → Option Nat
  | [], acc => some acc
  | c :: cs, acc =>
    if 48 ≤ c.toNat ∧ c.toNat ≤ 57 then parseDigits cs (acc * 10 + (c.toNat - 48)) else none

/-- Go `strconv.Atoi` for a 64-bit `int` (standard library, stated from its
documentation): an optional sign followed by at least one decimal digit, with
a value in the range of `int`. -/
def Atoi (s : String) : Except NumError Int :=
  let (neg, digits) :=
    match s.data with
    | '-' :: rest => (true, rest)
    | '+' :: rest => (false, rest)
    | cs => (false, cs)
  match digits with
  | [] => .error .ErrSyntax
  | _ =>
    match parseDigits digits 0 with
    | none => .error .ErrSyntax
    | some n =>
      if neg then
        if n ≤ 2 ^ 63 then .ok (-(n : Int)) else .error .ErrRange
      else
        if n < 2 ^ 63 then .ok (n : Int) else .error .ErrRange

/-- Config holds the application configuration. -/
structure Config where
  Port : String
  LogLevel : String
  ReadBufferSize : Int
  WriteBufferSize : Int
  deriving DecidableEq, Repr

/-- Source `getEnv`: the variable, or the default when it is empty. -/
def getEnv (env : Env) (key defaultValue : String) : String :=
  let value := Getenv env key
  if value ≠ "" then value else defaultValue

/-- Source `getEnvAsInt`: the variable as an int, or the default when it is
empty or `Atoi` reports an error. -/
def getEnvAsInt (env : Env) (key : String) (defaultValue : Int) : Int :=
  let valueStr := Getenv env key
  if valueStr = "" then defaultValue
  else
    match Atoi valueStr with
    | .error _ => defaultValue
    | .ok value => value

/-- Source `Load`: the configuration read from the environment. -/
def Load (env : Env) : Config :=
  { Port := getEnv env "PORT" "8080"
    LogLevel := getEnv env "LOG_LEVEL" "info"
    ReadBufferSize := getEnvAsInt env "READ_BUFFER_SIZE" 1024
    WriteBufferSize := getEnvAsInt env "WRITE_BUFFER_SIZE" 1024 }

/-- The environment holding exactly the listed variables (later entries are
shadowed by earlier ones), as the tests build it with `os.Setenv`. -/
def envOf (vars : List (String × String)) : Env :=
  fun key => (vars.find? (fun kv => kv.1 == key)).map (fun kv => kv.2)

end config

namespace handler

/-! ## internal/handler/websocket.go: constants -/

/-- Go `time.Second`, in nanoseconds. -/
def Second : Int := 1000000000

/-- Time allowed to write a message to the peer. -/
def writeWait : Int := 10 * Second

/-- Time allowed to read the next pong message from the peer. -/
def pongWait : Int := 60 * Second

/-- Send pings to peer with this period. Go constant division truncates
toward zero. -/
def pingPeriod : Int := Int.tdiv (pongWait * 9) 10

/-- Maximum message size allowed from peer. -/
def maxMessageSize : Nat := 512

/-- Capacity of the channel made by `make(chan []byte, 256)`. -/
def sendCapacity : Nat := 256

/-! ## Time and formatting (Go standard library) -/

/-- An instant as `time.Now()` returns it: seconds since the Unix epoch and
the offset of the local zone, in seconds east of UTC. -/
structure Time where
  unix : Int
  zoneOffset : Int
  deriving DecidableEq, Repr

/-- Go `Time.Unix`. -/
def Time.Unix (t : Time) : Int := t.unix

/-- Seconds elapsed since local midnight. -/
def Time.secondsOfDay (t : Time) : Nat := ((t.unix + t.zoneOffset) % 86400).toNat

/-- Go `Time.Hour`, in 0 .. 23. -/
def Time.Hour (t : Time) : Nat := t.secondsOfDay / 3600

/-- Go `Time.Minute`, in 0 .. 59. -/
def Time.Minute (t : Time) : Nat := t.secondsOfDay % 3600 / 60

/-- Go `Time.Second`, in 0 .. 59. -/
def Time.Sec (t : Time) : Nat := t.secondsOfDay % 60

/-- Two decimal digits, zero padded (the layout elements `15`, `04`, `05`). -/
def pad2 (n : Nat) : String :=
  String.mk [Nat.digitChar (n / 10 % 10), Nat.digitChar (n % 10)]

/-- Go `t.Format("15:04:05")`. -/
def Time.Format150405 (t : Time) : String :=
  pad2 t.Hour ++ ":" ++ pad2 t.Minute ++ ":" ++ pad2 t.Sec

/-- The verb `%d` of `fmt.Sprintf` on an `int64`. -/
def formatInt (i : Int) : String :=
  if i < 0 then "-" ++ Nat.repr i.natAbs else Nat.repr i.natAbs

/-- Source line 58: `fmt.Sprintf("%s-%d", r.RemoteAddr, time.Now().Unix())`. -/
def clientIDOf (remoteAddr : String) (now : Time) : String :=
  remoteAddr ++ "-" ++ formatInt now.Unix

/-- Source line 78: `fmt.Sprintf("Welcome! Your client ID is: %s", clientID)`. -/
def welcomeMsg (clientID : String) : String :=
  "Welcome! Your client ID is: " ++ clientID

/-- Source line 120:
`fmt.Sprintf("[%s] Echo: %s", time.Now().Format("15:04:05"), string(message))`. -/
def echoResponse (now : Time) (message : String) : String :=
  "[" ++ now.Format150405 ++ "] Echo: " ++ message

/-! ## The channel `send` (Go runtime semantics of a buffered channel) -/

/-- A buffered channel of byte strings: the queued values oldest first, the
capacity fixed by `make`, and whether `close` was called. -/
structure Chan where
  buf : List String
  cap : Nat
  closed : Bool
  deriving DecidableEq, Repr

/-- Outcome of a send statement `ch <- v` at one instant. -/
inductive SendResult where
  | sent (ch : Chan)
  | blocked
  | panics
  deriving DecidableEq, Repr

/-- Go `ch <- v`: panics on a closed channel, appends when the buffer has
room, and otherwise cannot proceed. -/
def Chan.trySend (ch : Chan) (v : String) : SendResult :=
  if ch.closed then .panics
  else if ch.buf.length < ch.cap then .sent { ch with buf := ch.buf ++ [v] }
  else .blocked

/-- Go `v, ok := <-ch`: the oldest value with `ok = true`; on a closed and
empty channel the zero value with `ok = false` (here `none`); on an open and
empty channel the receive cannot proceed (outer `none`). -/
def Chan.tryRecv (ch : Chan) : Option (Option String × Chan) :=
  match ch.buf with
  | v :: rest => some (some v, { ch with buf := rest })
  | [] => if ch.closed then some (none, ch) else none

/-- Go `len(ch)`. -/
def Chan.len (ch : Chan) : Nat := ch.buf.length

/-! ## The connection (gorilla/websocket, external) -/

/-- What the peer or the network presents to one call of `ReadMessage`. -/
inductive Incoming where
  | data (messageType : Nat) (payload : String)
  | deadline
  | closeNormal
  | closeAbnormal
  deriving DecidableEq, Repr

/-- The errors `ReadMessage` can return. -/
inductive ReadError where
  | timeout
  | readLimit
  | closeNormal
  | closeAbnormal
  deriving DecidableEq, Repr

/-- The library call `conn.ReadMessage()` under `SetReadLimit(limit)`: a data
message longer than a positive limit fails with the read-limit error, an
expired deadline and a close each fail with their own error. -/
def ReadMessage (limit : Nat) : Incoming → Except ReadError (Nat × String)
  | .data messageType payload =>
    if 0 < limit ∧ limit < payload.utf8ByteSize then .error .readLimit
    else .ok (messageType, payload)
  | .deadline => .error .timeout
  | .closeNormal => .error .closeNormal
  | .closeAbnormal => .error .closeAbnormal

/-- A write that `writePump` performs on the connection, recorded when the
call is made, whether or not the library then reports an error. A text message
carries its payload and, as ghost data, the queue entries it was built from. -/
inductive Frame where
  | text (payload : String) (parts : List String)
  | ping
  | close (payload : String)
  deriving DecidableEq, Repr

/-! ## The session as a transition system -/

/-- Where `HandleWebSocket` stands after starting the two goroutines. -/
inductive HandlerPC where
  | sending (msg : String)
  | done
  deriving DecidableEq, Repr

/-- Where `readPump` stands: at `ReadMessage`, at `c.send <- response`, or
returned. -/
inductive ReaderPC where
  | reading
  | sending (response : String)
  | done
  deriving DecidableEq, Repr

/-- Where `writePump` stands: at the `select`; holding a received message
before `NextWriter`; after `w.Write(message)` and before `len(c.send)`; in the
loop with `n - i` iterations left; or returned. `buf` is what was written to
`w` so far, `parts` the queue entries it came from. -/
inductive WriterPC where
  | select
  | received (message : String)
  | opened (buf : String) (parts : List String)
  | draining (buf : String) (parts : List String) (left : Nat)
  | done
  deriving DecidableEq, Repr

/-- One session: the `Client` value, the connection and the three goroutines
that touch them. `enqueued` is a ghost history of the completed sends. -/
structure Session where
  clientID : String
  send : Chan
  connClosed : Bool
  frames : List Frame
  tickerStopped : Bool
  handler : HandlerPC
  reader : ReaderPC
  writer : WriterPC
  panicked : Bool
  enqueued : List String
  deriving DecidableEq, Repr

/-- One atomic action of one goroutine, with what the environment decides
for it (the read result and clock, whether a write returns an error). -/
inductive Event where
  | handlerSend
  | read (incoming : Incoming) (now : Time)
  | readerSend
  | recv
  | nextWriter (ok : Bool)
  | sample
  | drain
  | closeFrame (ok : Bool)
  | tick (ok : Bool)
  deriving DecidableEq, Repr

/-- The deferred function of `writePump`: `ticker.Stop()`, `c.conn.Close()`. -/
def writerExit (s : Session) : Session :=
  { s with writer := .done, tickerStopped := true, connClosed := true }

/-- The deferred function of `readPump`: `c.conn.Close()`. -/
def readerExit (s : Session) : Session :=
  { s with reader := .done, connClosed := true }

/-- The state `HandleWebSocket` leaves after a successful upgrade, lines 58 to
78: the client with an empty channel of capacity 256, both pumps started and
the welcome message about to be sent. -/
def HandleWebSocket (remoteAddr : String) (now : Time) : Session :=
  { clientID := clientIDOf remoteAddr now
    send := { buf := [], cap := sendCapacity, closed := false }
    connClosed := false
    frames := []
    tickerStopped := false
    handler := .sending (welcomeMsg (clientIDOf remoteAddr now))
    reader := .reading
    writer := .select
    panicked := false
    enqueued := [] }

/-- The last statement of `HandleWebSocket`, line 79:
`client.send <- []byte(welcomeMsg)`. `none` when the send cannot proceed. -/
def sendWelcome (s : Session) : Option Session :=
  match s.handler with
  | .sending msg =>
    match s.send.trySend msg with
    | .sent ch => some { s with send := ch, handler := .done, enqueued := s.enqueued ++ [msg] }
    | .blocked => none
    | .panics => some { s with panicked := true }
  | .done => none

/-- One action of `readPump`, lines 104 to 122: the call of `ReadMessage`
with what follows up to the send, or the send `c.send <- []byte(response)`.
`none` when `readPump` is not at that statement or the send cannot proceed. -/
def readPump (s : Session) : Event → Option Session
  | .read incoming now =>
    match s.reader with
    | .reading =>
      match ReadMessage maxMessageSize incoming with
      | .error _ => some (readerExit s)
      | .ok (_, message) => some { s with reader := .sending (echoResponse now message) }
    | _ => none
  | .readerSend =>
    match s.reader with
    | .sending response =>
      match s.send.trySend response with
      | .sent ch =>
        some { s with send := ch, reader := .reading, enqueued := s.enqueued ++ [response] }
      | .blocked => none
      | .panics => some { s with panicked := true }
    | _ => none
  | _ => none

/-- One action of `writePump`, lines 133 to 171. `none` when `writePump` is
not at that statement or a receive cannot proceed. -/
def writePump (s : Session) : Event → Option Session
  | .recv =>
    -- lines 135 to 141: case message, ok := <-c.send
    match s.writer with
    | .select =>
      match s.send.tryRecv with
      | none => none
      | some (some message, ch) => some { s with send := ch, writer := .received message }
      | some (none, ch) =>
        some (writerExit { s with send := ch, frames := s.frames ++ [.close ""] })
    | _ => none
  | .nextWriter ok =>
    -- lines 143 to 147: NextWriter, then w.Write(message)
    match s.writer with
    | .received message =>
      if ok then some { s with writer := .opened message [message] }
      else some (writerExit s)
    | _ => none
  | .sample =>
    -- line 150: n := len(c.send)
    match s.writer with
    | .opened buf parts => some { s with writer := .draining buf parts s.send.len }
    | _ => none
  | .drain =>
    -- lines 151 to 154: one iteration, a newline and then the next queue entry
    match s.writer with
    | .draining buf parts (left + 1) =>
      match s.send.tryRecv with
      | none => none
      | some (v, ch) =>
        some { s with
          send := ch
          writer := .draining (buf ++ "\n" ++ v.getD "") (parts ++ [v.getD ""]) left }
    | _ => none
  | .closeFrame ok =>
    -- lines 156 to 158: w.Close() once the loop is over
    match s.writer with
    | .draining buf parts 0 =>
      if ok then some { s with frames := s.frames ++ [.text buf parts], writer := .select }
      else some (writerExit { s with frames := s.frames ++ [.text buf parts] })
    | _ => none
  | .tick ok =>
    -- lines 165 to 169: case <-ticker.C, WriteMessage(PingMessage, nil)
    match s.writer with
    | .select =>
      if ok then some { s with frames := s.frames ++ [.ping] }
      else some (writerExit { s with frames := s.frames ++ [.ping] })
    | _ => none
  | _ => none

/-- One step of the session: the goroutine the event belongs to performs it.
`none` when the event is not enabled (the goroutine is elsewhere or blocked
on the channel) or the program has crashed. -/
def step (s : Session) (e : Event) : Option Session :=
  if s.panicked then none
  else
    match e with
    | .handlerSend => sendWelcome s
    | .read incoming now => readPump s (.read incoming now)
    | .readerSend => readPump s .readerSend
    | e => writePump s e

/-- Run an interleaving from a state; `none` when some event is not enabled. -/
def run (s : Session) : List Event → Option Session
  | [] => some s
  | e :: es => (step s e).bind (fun s1 => run s1 es)

/-- The text messages among the written frames, as lists of queue entries. -/
def textParts : List Frame → List (List String)
  | [] => []
  | .text _ parts :: fs => parts :: textParts fs
  | _ :: fs => textParts fs

/-- The queue entries carried by the written text messages, in order. -/
def delivered (s : Session) : List String := (textParts s.frames).flatten

/-! ## The step function as a relation

`Step` lists the enabled transitions of `step` one by one; the invariants
below are proved by cases on it. -/

/-- The transitions of `step`, one constructor per branch that returns a
state. -/
inductive Step : Session → Event → Session → Prop where
  | hSend {s : Session} {msg : String} :
    s.panicked = false → s.handler = .sending msg → s.send.closed = false →
    s.send.buf.length < s.send.cap →
    Step s .handlerSend { s with
      send := { s.send with buf := s.send.buf ++ [msg] }
      handler := .done
      enqueued := s.enqueued ++ [msg] }
  | hPanic {s : Session} {msg : String} :
    s.panicked = false → s.handler = .sending msg → s.send.closed = true →
    Step s .handlerSend { s with panicked := true }
  | readOk {s : Session} {incoming : Incoming} {now : Time} {messageType : Nat} {message : String} :
    s.panicked = false → s.reader = .reading →
    ReadMessage maxMessageSize incoming = .ok (messageType, message) →
    Step s (.read incoming now) { s with reader := .sending (echoResponse now message) }
  | readErr {s : Session} {incoming : Incoming} {now : Time} {err : ReadError} :
    s.panicked = false → s.reader = .reading →
    ReadMessage maxMessageSize incoming = .error err →
    Step s (.read incoming now) (readerExit s)
  | rSend {s : Session} {response : String} :
    s.panicked = false → s.reader = .sending response → s.send.closed = false →
    s.send.buf.length < s.send.cap →
    Step s .readerSend { s with
      send := { s.send with buf := s.send.buf ++ [response] }
      reader := .reading
      enqueued := s.enqueued ++ [response] }
  | rPanic {s : Session} {response : String} :
    s.panicked = false → s.reader = .sending response → s.send.closed = true →
    Step s .readerSend { s with panicked := true }
  | recvMsg {s : Session} {message : String} {rest : List String} :
    s.panicked = false → s.writer = .select → s.send.buf = message :: rest →
    Step s .recv { s with send := { s.send with buf := rest }, writer := .received message }
  | recvClosed {s : Session} :
    s.panicked = false → s.writer = .select → s.send.buf = [] → s.send.closed = true →
    Step s .recv (writerExit { s with frames := s.frames ++ [.close ""] })
  | nextOk {s : Session} {message : String} :
    s.panicked = false → s.writer = .received message →
    Step s (.nextWriter true) { s with writer := .opened message [message] }
  | nextErr {s : Session} {message : String} :
    s.panicked = false → s.writer = .received message →
    Step s (.nextWriter false) (writerExit s)
  | sample {s : Session} {buf : String} {parts : List String} :
    s.panicked = false → s.writer = .opened buf parts →
    Step s .sample { s with writer := .draining buf parts s.send.buf.length }
  | drainMsg {s : Session} {buf : String} {parts : List String} {left : Nat} {v : String}
      {rest : List String} :
    s.panicked = false → s.writer = .draining buf parts (left + 1) → s.send.buf = v :: rest →
    Step s .drain { s with
      send := { s.send with buf := rest }
      writer := .draining (buf ++ "\n" ++ v) (parts ++ [v]) left }
  | drainClosed {s : Session} {buf : String} {parts : List String} {left : Nat} :
    s.panicked = false → s.writer = .draining buf parts (left + 1) → s.send.buf = [] →
    s.send.closed = true →
    Step s .drain { s with writer := .draining (buf ++ "\n" ++ "") (parts ++ [""]) left }
  | closeOk {s : Session} {buf : String} {parts : List String} :
    s.panicked = false → s.writer = .draining buf parts 0 →
    Step s (.closeFrame true) { s with frames := s.frames ++ [.text buf parts], writer := .select }
  | closeErr {s : Session} {buf : String} {parts : List String} :
    s.panicked = false → s.writer = .draining buf parts 0 →
    Step s (.closeFrame false) (writerExit { s with frames := s.frames ++ [.text buf parts] })
  | tickOk {s : Session} :
    s.panicked = false → s.writer = .select →
    Step s (.tick true) { s with frames := s.frames ++ [.ping] }
  | tickErr {s : Session} :
    s.panicked = false → s.writer = .select →
    Step s (.tick false) (writerExit { s with frames := s.frames ++ [.ping] })

/-- The queue entries `writePump` holds: received but not yet in a frame. -/
def inflight : WriterPC → List String
  | .select => []
  | .received message => [message]
  | .opened _ parts => parts
  | .draining _ parts _ => parts
  | .done => []

/-- The channel of a running session: open, of capacity 256, never over
capacity, and the program has not crashed. -/
structure Sound (s : Session) : Prop where
  notClosed : s.send.closed = false
  notPanicked : s.panicked = false
  cap : s.send.cap = sendCapacity
  bounded : s.send.buf.length ≤ s.send.cap

/-- The enqueue history splits into what was written in text messages, what
`writePump` holds, and what is still queued; the loop never plans more
receives than there are queued entries. -/
structure Fifo (s : Session) : Prop where
  order : ∃ rest, s.enqueued = delivered s ++ inflight s.writer ++ rest ∧
    (s.writer ≠ .done → rest = s.send.buf)
  left : ∀ buf parts k, s.writer = .draining buf parts k → k ≤ s.send.buf.length

/-- What `writePump` has written to `w` is its entries joined by newlines. -/
def joined : WriterPC → Prop
  | .opened buf parts => buf = "\n".intercalate parts ∧ parts ≠ []
  | .draining buf parts _ => buf = "\n".intercalate parts ∧ parts ≠ []
  | _ => True

/-- Every text message, written or in progress, is the newline-join of the
queue entries it carries, and carries at least one. -/
structure Shape (s : Session) : Prop where
  writer : joined s.writer
  frames : ∀ payload parts, Frame.text payload parts ∈ s.frames →
    payload = "\n".intercalate parts ∧ parts ≠ []

/-- Progress of the loop of lines 150 to 154 since the state `s0` in which
`len(c.send)` was sampled with `message` written and `queued` in the channel:
`taken` entries were received, `todo` are still to receive, and `added` were
enqueued behind them in the meantime. -/
def Draining (s0 : Session) (message : String) (queued : List String) (s : Session) : Prop :=
  ∃ taken todo added, queued = taken ++ todo ∧
    s.writer = .draining ("\n".intercalate (message :: taken)) (message :: taken) todo.length ∧
    s.send.buf = todo ++ added ∧ s.frames = s0.frames ∧ s.enqueued = s0.enqueued ++ added

/-- What can still happen to the queue history once `readPump` has returned
in state `s0`: only the handler can still enqueue, once. -/
def AfterReader (s0 s : Session) : Prop :=
  s.reader = .done ∧ s.connClosed = true ∧
    (s.enqueued = s0.enqueued ∧ s.handler = s0.handler ∨
      ∃ msg, s0.handler = .sending msg ∧ s.handler = .done ∧ s.enqueued = s0.enqueued ++ [msg])

/-- A producer standing at a send on a full queue whose consumer has
returned: `readPump` (or the handler) stays where it is and the queue keeps
its content. -/
def Stuck (s0 s : Session) : Prop :=
  s.writer = .done ∧ s.send = s0.send ∧
    (∀ r, s0.reader = .sending r → s.reader = .sending r) ∧
    (∀ m, s0.handler = .sending m → s.handler = .sending m)

/-- The first text message among the written frames: payload and entries. -/
def firstText : List Frame → Option (String × List String)
  | [] => none
  | .text payload parts :: _ => some (payload, parts)
  | _ :: fs => firstText fs

/-- An example upgrade: the peer address and the instant of the upgrade. -/
def exampleSession : Session := HandleWebSocket "10.0.0.1:5000" ⟨1700000000, 0⟩

/-- An interleaving in which the peer sends 257 one-byte messages while
`writePump` is inside the write of the welcome message, and that write then
fails: the handler sends the welcome message, `writePump` receives it, opens
the writer and samples an empty queue; `readPump` echoes 256 messages, reads
one more; `w.Close()` returns an error. -/
def floodTrace : List Event :=
  [.handlerSend, .recv, .nextWriter true, .sample] ++
    (List.replicate 256 [Event.read (.data 1 "x") ⟨1700000001, 0⟩, Event.readerSend]).flatten ++
    [.read (.data 1 "x") ⟨1700000001, 0⟩, .closeFrame false]

/-- An interleaving in which the peer sends "a", "b" and "c": the first two
echoes are coalesced with the welcome message, the third gets its own frame. -/
def abcTrace : List Event :=
  [.handlerSend, .recv, .nextWriter true,
    .read (.data 1 "a") ⟨1700000001, 0⟩, .readerSend,
    .read (.data 1 "b") ⟨1700000002, 0⟩, .readerSend,
    .sample, .drain, .drain, .closeFrame true,
    .read (.data 1 "c") ⟨1700000003, 0⟩, .readerSend,
    .recv, .nextWriter true, .sample, .closeFrame true]

/-- The example session at the instant `writePump` samples the queue length:
the welcome message is written to `w`, two echoes are queued. -/
def samplingState : Session :=
  { exampleSession with
    send := { buf := ["[22:13:21] Echo: a", "[22:13:22] Echo: b"], cap := sendCapacity, closed := false }
    handler := .done
    writer := .opened "Welcome! Your client ID is: 10.0.0.1:5000-1700000000"
      ["Welcome! Your client ID is: 10.0.0.1:5000-1700000000"]
    enqueued := ["Welcome! Your client ID is: 10.0.0.1:5000-1700000000",
      "[22:13:21] Echo: a", "[22:13:22] Echo: b"] }

/-- The example session after the hub-style shutdown the `!ok` branch is
written for: the channel closed and empty, `writePump` at its `select`. -/
def closedQueueState : Session :=
  { exampleSession with
    send := { buf := [], cap := sendCapacity, closed := true }
    handler := .done }

/-- A message of 513 bytes. -/
def oversized : String := String.mk (List.replicate 513 'a')

/-- The time `readPump` waits at its send of `response`, seen from the state
`s0` in which `ReadMessage` returned: `readPump` is still at that send, and
since `s0` only the handler can have enqueued, once. -/
def Pending (s0 : Session) (response : String) (s : Session) : Prop :=
  s.reader = .sending response ∧
    (s.enqueued = s0.enqueued ∧ s.handler = s0.handler ∨
      ∃ msg, s0.handler = .sending msg ∧ s.handler = .done ∧ s.enqueued = s0.enqueued ++ [msg])

/-- The start of an interleaving in which the queue fills up while
`writePump` is inside the write of the welcome message: the handler sends the
welcome message, `writePump` receives it, opens the writer and samples an
empty queue, and `readPump` echoes 256 one-byte messages. -/
def fillTrace : List Event :=
  [.handlerSend, .recv, .nextWriter true, .sample] ++
    (List.replicate 256 [Event.read (.data 1 "x") ⟨1700000001, 0⟩, Event.readerSend]).flatten

/-- What follows `fillTrace`: the peer sends "LAST", `ReadMessage` returns it
one second later, and then the pending `w.Close()` of `writePump` fails. -/
def lastTrace : List Event :=
  [.read (.data 1 "LAST") ⟨1700000002, 0⟩, .closeFrame false]

end handler

/-! # Theorems -/

set_option maxRecDepth 100000

namespace config

theorem Atoi_empty : Atoi "" = .error .ErrSyntax := rfl

theorem getEnv_eq (env : Env) (key d : String) :
    getEnv env key d = match env key with
      | some v => if v = "" then d else v
      | none => d := by
  unfold getEnv Getenv
  cases h : env key with
  | none => simp
  | some v => by_cases hv : v = "" <;> simp [hv]

theorem getEnvAsInt_eq (env : Env) (key : String) (d : Int) :
    getEnvAsInt env key d = match (env key).bind (fun v => (Atoi v).toOption) with
      | some n => n
      | none => d := by
  unfold getEnvAsInt Getenv
  cases h : env key with
  | none => simp
  | some v =>
    by_cases hv : v = ""
    · subst hv
      simp [Atoi_empty, Except.toOption]
    · simp only [Option.getD_some, hv, if_false, Option.some_bind]
      cases Atoi v <;> simp [Except.toOption]

/-- C9: `getEnvAsInt key d` returns `d` when the variable is unset, when it is
empty and when `strconv.Atoi` rejects its value, and returns the parsed
integer when `Atoi` accepts it; "invalid" gives `d` and "200" gives 200. The
function is total: it returns an integer on every environment. -/
theorem getEnvAsInt_default_or_parsed (env : Env) (key : String) (d : Int) :
    (env key = none → getEnvAsInt env key d = d) ∧
    (env key = some "" → getEnvAsInt env key d = d) ∧
    (∀ v e, env key = some v → Atoi v = .error e → getEnvAsInt env key d = d) ∧
    (∀ v n, env key = some v → Atoi v = .ok n → getEnvAsInt env key d = n) ∧
    getEnvAsInt (envOf [(key, "invalid")]) key d = d ∧
    getEnvAsInt (envOf [(key, "200")]) key d = 200 := by
  refine ⟨?_, ?_, ?_, ?_, ?_, ?_⟩
  · intro h
    simp [getEnvAsInt, Getenv, h]
  · intro h
    simp [getEnvAsInt, Getenv, h]
  · intro v e h ha
    simp only [getEnvAsInt, Getenv, h, Option.getD_some, ha]
    split <;> rfl
  · intro v n h ha
    have hv : v ≠ "" := by
      rintro rfl
      rw [Atoi_empty] at ha
      cases ha
    simp [getEnvAsInt, Getenv, h, ha, hv]
  · have h : Atoi "invalid" = .error .ErrSyntax := rfl
    simp [getEnvAsInt, Getenv, envOf, h]
  · have h : Atoi "200" = .ok 200 := rfl
    simp [getEnvAsInt, Getenv, envOf, h]

theorem getEnvAsInt_default_or_parsed_witness :
    getEnvAsInt (envOf [("TEST_INT", "-42")]) "TEST_INT" 100 = -42 ∧
    getEnvAsInt (envOf [("TEST_INT", "12a")]) "TEST_INT" 100 = 100 ∧
    getEnvAsInt (envOf []) "TEST_INT" 100 = 100 :=
  ⟨(getEnvAsInt_default_or_parsed (envOf [("TEST_INT", "-42")]) "TEST_INT" 100).2.2.2.1
      "-42" (-42) rfl rfl,
    (getEnvAsInt_default_or_parsed (envOf [("TEST_INT", "12a")]) "TEST_INT" 100).2.2.1
      "12a" .ErrSyntax rfl rfl,
    (getEnvAsInt_default_or_parsed (envOf []) "TEST_INT" 100).1 rfl⟩

/-- C10: `Load` returns the configuration whose `Port` is `PORT` when set and
not empty and "8080" otherwise, whose `LogLevel` is `LOG_LEVEL` when set and
not empty and "info" otherwise, and whose buffer sizes are the integers
`READ_BUFFER_SIZE` and `WRITE_BUFFER_SIZE` parse to and 1024 when they are
unset or do not parse; on the empty environment it is
("8080", "info", 1024, 1024); each field is the same in two environments that
agree on its variable. -/
theorem Load_reads_environment (env : Env) :
    Load env =
      { Port := match env "PORT" with
          | some v => if v = "" then "8080" else v
          | none => "8080"
        LogLevel := match env "LOG_LEVEL" with
          | some v => if v = "" then "info" else v
          | none => "info"
        ReadBufferSize := match (env "READ_BUFFER_SIZE").bind (fun v => (Atoi v).toOption) with
          | some n => n
          | none => 1024
        WriteBufferSize := match (env "WRITE_BUFFER_SIZE").bind (fun v => (Atoi v).toOption) with
          | some n => n
          | none => 1024 } ∧
    Load (fun _ => none) = ⟨"8080", "info", 1024, 1024⟩ ∧
    (∀ env2 : Env, env2 "PORT" = env "PORT" → (Load env2).Port = (Load env).Port) ∧
    (∀ env2 : Env, env2 "LOG_LEVEL" = env "LOG_LEVEL" →
      (Load env2).LogLevel = (Load env).LogLevel) ∧
    (∀ env2 : Env, env2 "READ_BUFFER_SIZE" = env "READ_BUFFER_SIZE" →
      (Load env2).ReadBufferSize = (Load env).ReadBufferSize) ∧
    (∀ env2 : Env, env2 "WRITE_BUFFER_SIZE" = env "WRITE_BUFFER_SIZE" →
      (Load env2).WriteBufferSize = (Load env).WriteBufferSize) := by
  refine ⟨?_, rfl, ?_, ?_, ?_, ?_⟩
  · simp only [Load, getEnv_eq, getEnvAsInt_eq]
  · intro env2 h
    simp only [Load, getEnv_eq, h]
  · intro env2 h
    simp only [Load, getEnv_eq, h]
  · intro env2 h
    simp only [Load, getEnvAsInt_eq, h]
  · intro env2 h
    simp only [Load, getEnvAsInt_eq, h]

theorem Load_reads_environment_witness :
    (Load (envOf [("LOG_LEVEL", "debug"), ("PORT", "9000"), ("READ_BUFFER_SIZE", "2048")])).Port =
      (Load (envOf [("PORT", "9000")])).Port ∧
    Load (envOf [("PORT", "9000"), ("LOG_LEVEL", "debug"), ("READ_BUFFER_SIZE", "2048"),
      ("WRITE_BUFFER_SIZE", "invalid")]) = ⟨"9000", "debug", 2048, 1024⟩ :=
  ⟨(Load_reads_environment (envOf [("PORT", "9000")])).2.2.1
      (envOf [("LOG_LEVEL", "debug"), ("PORT", "9000"), ("READ_BUFFER_SIZE", "2048")]) rfl,
    by decide⟩

end config

namespace handler

theorem pad2_length (n : Nat) : (pad2 n).length = 2 := rfl

theorem Format150405_length (t : Time) : t.Format150405.length = 8 := by
  simp [Time.Format150405, String.length_append, pad2_length, show ":".length = 1 from rfl]

theorem secondsOfDay_lt (t : Time) : t.secondsOfDay < 86400 := by
  unfold Time.secondsOfDay
  have h1 : (t.unix + t.zoneOffset) % 86400 < 86400 := Int.emod_lt_of_pos _ (by norm_num)
  have h0 : 0 ≤ (t.unix + t.zoneOffset) % 86400 := Int.emod_nonneg _ (by norm_num)
  omega

theorem clock_bounds (t : Time) : t.Hour < 24 ∧ t.Minute < 60 ∧ t.Sec < 60 := by
  have h := secondsOfDay_lt t
  unfold Time.Hour Time.Minute Time.Sec
  omega

/-- C8: `pingPeriod` is nine tenths of `pongWait`: with `pongWait` = 60 s it
is 54 s, the division by ten leaves no remainder, the product `pongWait * 9`
stays below 2^63 nanoseconds, and the period is positive and below
`pongWait`. -/
theorem pingPeriod_is_nine_tenths :
    pongWait = 60 * Second ∧ pingPeriod = 54 * Second ∧ pingPeriod * 10 = pongWait * 9 ∧
    (pongWait * 9) % 10 = 0 ∧ pongWait * 9 < 2 ^ 63 ∧ 0 < pingPeriod ∧ pingPeriod < pongWait := by
  decide

theorem step_panicked {s s1 : Session} {e : Event} (h : step s e = some s1) :
    s.panicked = false := by
  cases hp : s.panicked with
  | false => rfl
  | true => simp [step, sendWelcome, readPump, writePump, hp] at h

theorem Step_of_eq {s s1 target : Session} {e : Event} (hk : Step s e target)
    (he : step s e = some target) (h : step s e = some s1) : Step s e s1 := by
  rw [he] at h
  cases h
  exact hk

/-- Every transition that `step` computes is one of the listed ones. -/
theorem Step_of_step {s s1 : Session} {e : Event} (h : step s e = some s1) : Step s e s1 := by
  have hp := step_panicked h
  cases e with
  | handlerSend =>
    cases hh : s.handler with
    | done => simp [step, sendWelcome, readPump, writePump, hp, hh] at h
    | sending msg =>
      cases hc : s.send.closed with
      | true =>
        exact Step_of_eq (Step.hPanic hp hh hc) (by simp [step, sendWelcome, readPump, writePump, hp, hh, Chan.trySend, hc]) h
      | false =>
        by_cases hl : s.send.buf.length < s.send.cap
        · exact Step_of_eq (Step.hSend hp hh hc hl) (by simp [step, sendWelcome, readPump, writePump, hp, hh, Chan.trySend, hc, hl]) h
        · simp [step, sendWelcome, readPump, writePump, hp, hh, Chan.trySend, hc, hl] at h
  | read incoming now =>
    cases hr : s.reader with
    | reading =>
      cases hm : ReadMessage maxMessageSize incoming with
      | error err =>
        exact Step_of_eq (Step.readErr hp hr hm) (by simp [step, sendWelcome, readPump, writePump, hp, hr, hm]) h
      | ok v =>
        obtain ⟨messageType, message⟩ := v
        exact Step_of_eq (Step.readOk hp hr hm) (by simp [step, sendWelcome, readPump, writePump, hp, hr, hm]) h
    | sending response => simp [step, sendWelcome, readPump, writePump, hp, hr] at h
    | done => simp [step, sendWelcome, readPump, writePump, hp, hr] at h
  | readerSend =>
    cases hr : s.reader with
    | reading => simp [step, sendWelcome, readPump, writePump, hp, hr] at h
    | done => simp [step, sendWelcome, readPump, writePump, hp, hr] at h
    | sending response =>
      cases hc : s.send.closed with
      | true =>
        exact Step_of_eq (Step.rPanic hp hr hc) (by simp [step, sendWelcome, readPump, writePump, hp, hr, Chan.trySend, hc]) h
      | false =>
        by_cases hl : s.send.buf.length < s.send.cap
        · exact Step_of_eq (Step.rSend hp hr hc hl) (by simp [step, sendWelcome, readPump, writePump, hp, hr, Chan.trySend, hc, hl]) h
        · simp [step, sendWelcome, readPump, writePump, hp, hr, Chan.trySend, hc, hl] at h
  | recv =>
    cases hw : s.writer with
    | select =>
      cases hb : s.send.buf with
      | cons message rest =>
        exact Step_of_eq (Step.recvMsg hp hw hb) (by simp [step, sendWelcome, readPump, writePump, hp, hw, Chan.tryRecv, hb]) h
      | nil =>
        cases hc : s.send.closed with
        | true =>
          exact Step_of_eq (Step.recvClosed hp hw hb hc) (by simp [step, sendWelcome, readPump, writePump, hp, hw, Chan.tryRecv, hb, hc]) h
        | false => simp [step, sendWelcome, readPump, writePump, hp, hw, Chan.tryRecv, hb, hc] at h
    | received message => simp [step, sendWelcome, readPump, writePump, hp, hw] at h
    | opened buf parts => simp [step, sendWelcome, readPump, writePump, hp, hw] at h
    | draining buf parts left => simp [step, sendWelcome, readPump, writePump, hp, hw] at h
    | done => simp [step, sendWelcome, readPump, writePump, hp, hw] at h
  | nextWriter ok =>
    cases hw : s.writer with
    | received message =>
      cases ok with
      | true =>
        exact Step_of_eq (Step.nextOk hp hw) (by simp [step, sendWelcome, readPump, writePump, hp, hw]) h
      | false =>
        exact Step_of_eq (Step.nextErr hp hw) (by simp [step, sendWelcome, readPump, writePump, hp, hw]) h
    | select => simp [step, sendWelcome, readPump, writePump, hp, hw] at h
    | opened buf parts => simp [step, sendWelcome, readPump, writePump, hp, hw] at h
    | draining buf parts left => simp [step, sendWelcome, readPump, writePump, hp, hw] at h
    | done => simp [step, sendWelcome, readPump, writePump, hp, hw] at h
  | sample =>
    cases hw : s.writer with
    | opened buf parts =>
      exact Step_of_eq (Step.sample hp hw) (by simp [step, sendWelcome, readPump, writePump, hp, hw, Chan.len]) h
    | select => simp [step, sendWelcome, readPump, writePump, hp, hw] at h
    | received message => simp [step, sendWelcome, readPump, writePump, hp, hw] at h
    | draining buf parts left => simp [step, sendWelcome, readPump, writePump, hp, hw] at h
    | done => simp [step, sendWelcome, readPump, writePump, hp, hw] at h
  | drain =>
    cases hw : s.writer with
    | draining buf parts left =>
      cases left with
      | zero => simp [step, sendWelcome, readPump, writePump, hp, hw] at h
      | succ left =>
        cases hb : s.send.buf with
        | cons v rest =>
          exact Step_of_eq (Step.drainMsg hp hw hb) (by simp [step, sendWelcome, readPump, writePump, hp, hw, Chan.tryRecv, hb]) h
        | nil =>
          cases hc : s.send.closed with
          | true =>
            exact Step_of_eq (Step.drainClosed hp hw hb hc) (by simp [step, sendWelcome, readPump, writePump, hp, hw, Chan.tryRecv, hb, hc]) h
          | false => simp [step, sendWelcome, readPump, writePump, hp, hw, Chan.tryRecv, hb, hc] at h
    | select => simp [step, sendWelcome, readPump, writePump, hp, hw] at h
    | received message => simp [step, sendWelcome, readPump, writePump, hp, hw] at h
    | opened buf parts => simp [step, sendWelcome, readPump, writePump, hp, hw] at h
    | done => simp [step, sendWelcome, readPump, writePump, hp, hw] at h
  | closeFrame ok =>
    cases hw : s.writer with
    | draining buf parts left =>
      cases left with
      | succ left => simp [step, sendWelcome, readPump, writePump, hp, hw] at h
      | zero =>
        cases ok with
        | true =>
          exact Step_of_eq (Step.closeOk hp hw) (by simp [step, sendWelcome, readPump, writePump, hp, hw]) h
        | false =>
          exact Step_of_eq (Step.closeErr hp hw) (by simp [step, sendWelcome, readPump, writePump, hp, hw]) h
    | select => simp [step, sendWelcome, readPump, writePump, hp, hw] at h
    | received message => simp [step, sendWelcome, readPump, writePump, hp, hw] at h
    | opened buf parts => simp [step, sendWelcome, readPump, writePump, hp, hw] at h
    | done => simp [step, sendWelcome, readPump, writePump, hp, hw] at h
  | tick ok =>
    cases hw : s.writer with
    | select =>
      cases ok with
      | true =>
        exact Step_of_eq (Step.tickOk hp hw) (by simp [step, sendWelcome, readPump, writePump, hp, hw]) h
      | false =>
        exact Step_of_eq (Step.tickErr hp hw) (by simp [step, sendWelcome, readPump, writePump, hp, hw]) h
    | received message => simp [step, sendWelcome, readPump, writePump, hp, hw] at h
    | opened buf parts => simp [step, sendWelcome, readPump, writePump, hp, hw] at h
    | draining buf parts left => simp [step, sendWelcome, readPump, writePump, hp, hw] at h
    | done => simp [step, sendWelcome, readPump, writePump, hp, hw] at h

/-! ## Runs and invariants -/

theorem run_cons_eq {s s2 : Session} {e : Event} {es : List Event}
    (h : run s (e :: es) = some s2) : ∃ s1, step s e = some s1 ∧ run s1 es = some s2 := by
  simp only [run] at h
  cases hs : step s e with
  | none => simp [hs] at h
  | some s1 => exact ⟨s1, rfl, by simpa [hs] using h⟩

theorem run_append_eq {s s2 : Session} {es fs : List Event}
    (h : run s (es ++ fs) = some s2) : ∃ s1, run s es = some s1 ∧ run s1 fs = some s2 := by
  induction es generalizing s with
  | nil => exact ⟨s, rfl, h⟩
  | cons e es ih =>
    obtain ⟨s1, h1, h2⟩ := run_cons_eq h
    obtain ⟨s3, h3, h4⟩ := ih h2
    exact ⟨s3, by simp [run, h1, h3], h4⟩

theorem run_append_of {s s1 s2 : Session} {es fs : List Event}
    (h1 : run s es = some s1) (h2 : run s1 fs = some s2) : run s (es ++ fs) = some s2 := by
  induction es generalizing s with
  | nil =>
    simp only [run, Option.some.injEq] at h1
    subst h1
    exact h2
  | cons e es ih =>
    obtain ⟨s3, h3, h4⟩ := run_cons_eq h1
    simp only [List.cons_append, run, h3, Option.some_bind]
    exact ih h4

/-- A property kept by every step is kept by every run. -/
theorem run_invariant {P : Session → Prop}
    (hstep : ∀ s e s1, P s → step s e = some s1 → P s1) :
    ∀ (es : List Event) (s s1 : Session), P s → run s es = some s1 → P s1 := by
  intro es
  induction es with
  | nil =>
    intro s s1 hp h
    simp only [run, Option.some.injEq] at h
    exact h ▸ hp
  | cons e es ih =>
    intro s s1 hp h
    obtain ⟨s2, h2, h3⟩ := run_cons_eq h
    exact ih s2 s1 (hstep s e s2 hp h2) h3

theorem textParts_append (fs gs : List Frame) :
    textParts (fs ++ gs) = textParts fs ++ textParts gs := by
  induction fs with
  | nil => rfl
  | cons f fs ih => cases f <;> simp [textParts, ih]

theorem Sound_init (remoteAddr : String) (now : Time) : Sound (HandleWebSocket remoteAddr now) :=
  ⟨rfl, rfl, rfl, by simp [HandleWebSocket]⟩

theorem Sound_step (s : Session) (e : Event) (s1 : Session) (hs : Sound s)
    (h : step s e = some s1) : Sound s1 := by
  obtain ⟨h1, h2, h3, h4⟩ := hs
  have hk := Step_of_step h
  cases hk <;> first
    | (rename_i hc; rw [h1] at hc; cases hc)
    | (constructor <;> simp_all [writerExit, readerExit] <;> omega)

theorem Sound_run {remoteAddr : String} {now : Time} {es : List Event} {s : Session}
    (h : run (HandleWebSocket remoteAddr now) es = some s) : Sound s :=
  run_invariant Sound_step es _ s (Sound_init remoteAddr now) h

theorem Fifo_init (remoteAddr : String) (now : Time) : Fifo (HandleWebSocket remoteAddr now) :=
  ⟨⟨[], by simp [HandleWebSocket, delivered, textParts, inflight]⟩,
    by simp [HandleWebSocket]⟩

theorem Fifo_step (s : Session) (e : Event) (s1 : Session) (hs : Sound s ∧ Fifo s)
    (h : step s e = some s1) : Sound s1 ∧ Fifo s1 := by
  refine ⟨Sound_step s e s1 hs.1 h, ?_⟩
  obtain ⟨⟨h1, h2, h3, h4⟩, ⟨⟨rest, ho, hr⟩, hl⟩⟩ := hs
  have hk := Step_of_step h
  cases hk with
  | hSend hp hh hc hlen =>
    rename_i msg
    constructor
    · by_cases hw : s.writer = .done
      · exact ⟨rest ++ [msg], by simp [delivered, ho, hw, inflight], by simp [hw]⟩
      · refine ⟨s.send.buf ++ [msg], ?_, fun _ => rfl⟩
        simp [delivered, ho, hr hw]
    · intro buf parts k hk
      have := hl buf parts k hk
      simp
      omega
  | hPanic hp hh hc => rw [h1] at hc; cases hc
  | readOk hp hr1 hm => exact ⟨⟨rest, ho, hr⟩, hl⟩
  | readErr hp hr1 hm => exact ⟨⟨rest, ho, hr⟩, hl⟩
  | rSend hp hh hc hlen =>
    rename_i msg
    constructor
    · by_cases hw : s.writer = .done
      · exact ⟨rest ++ [msg], by simp [delivered, ho, hw, inflight], by simp [hw]⟩
      · refine ⟨s.send.buf ++ [msg], ?_, fun _ => rfl⟩
        simp [delivered, ho, hr hw]
    · intro buf parts k hk
      have := hl buf parts k hk
      simp
      omega
  | rPanic hp hh hc => rw [h1] at hc; cases hc
  | recvMsg hp hw hb =>
    rename_i message tail
    have hrest := hr (by simp [hw])
    constructor
    · refine ⟨tail, ?_, fun _ => rfl⟩
      simp [delivered, inflight, ho, hw, hrest, hb]
    · intro buf parts k hk
      simp at hk
  | recvClosed hp hw hb hc => rw [h1] at hc; cases hc
  | nextOk hp hw =>
    constructor
    · refine ⟨rest, ?_, fun _ => hr (by simp [hw])⟩
      simpa [delivered, inflight, hw] using ho
    · intro buf parts k hk
      simp at hk
  | nextErr hp hw =>
    constructor
    · refine ⟨inflight s.writer ++ rest, ?_, by simp [writerExit]⟩
      simpa [delivered, inflight, writerExit] using ho
    · intro buf parts k hk
      simp [writerExit] at hk
  | sample hp hw =>
    constructor
    · refine ⟨rest, ?_, fun _ => hr (by simp [hw])⟩
      simpa [delivered, inflight, hw] using ho
    · intro buf parts k hk
      simp at hk
      simp
      omega
  | drainMsg hp hw hb =>
    rename_i buf parts left v tail
    have hrest := hr (by simp [hw])
    constructor
    · refine ⟨tail, ?_, fun _ => rfl⟩
      simp [delivered, inflight, ho, hw, hrest, hb]
    · intro buf1 parts1 k hk
      have := hl _ _ _ hw
      simp at hk
      simp [hb] at this ⊢
      omega
  | drainClosed hp hw hb hc => rw [h1] at hc; cases hc
  | closeOk hp hw =>
    constructor
    · refine ⟨rest, ?_, fun _ => hr (by simp [hw])⟩
      simpa [delivered, inflight, hw, textParts_append, textParts] using ho
    · intro buf parts k hk
      simp at hk
  | closeErr hp hw =>
    constructor
    · refine ⟨rest, ?_, by simp [writerExit]⟩
      simpa [delivered, inflight, hw, textParts_append, textParts, writerExit] using ho
    · intro buf parts k hk
      simp [writerExit] at hk
  | tickOk hp hw =>
    constructor
    · refine ⟨rest, ?_, fun _ => hr (by simp [hw])⟩
      simpa [delivered, inflight, hw, textParts_append, textParts] using ho
    · intro buf parts k hk
      simp [hw] at hk
  | tickErr hp hw =>
    constructor
    · refine ⟨rest, ?_, by simp [writerExit]⟩
      simpa [delivered, inflight, hw, textParts_append, textParts, writerExit] using ho
    · intro buf parts k hk
      simp [writerExit] at hk

theorem Fifo_run {remoteAddr : String} {now : Time} {es : List Event} {s : Session}
    (h : run (HandleWebSocket remoteAddr now) es = some s) : Sound s ∧ Fifo s :=
  run_invariant (P := fun s => Sound s ∧ Fifo s) Fifo_step es _ s
    ⟨Sound_init remoteAddr now, Fifo_init remoteAddr now⟩ h

theorem intercalate_go_snoc (acc sep v : String) (parts : List String) :
    String.intercalate.go acc sep (parts ++ [v]) = String.intercalate.go acc sep parts ++ sep ++ v := by
  induction parts generalizing acc with
  | nil => simp [String.intercalate.go]
  | cons p ps ih => simp [String.intercalate.go, ih]

/-- Appending one entry to a non-empty list adds one separator and the entry. -/
theorem intercalate_snoc (sep v : String) (parts : List String) (h : parts ≠ []) :
    sep.intercalate (parts ++ [v]) = sep.intercalate parts ++ sep ++ v := by
  cases parts with
  | nil => exact absurd rfl h
  | cons p ps => simp [String.intercalate, intercalate_go_snoc]

theorem intercalate_go_starts (acc sep : String) (parts : List String) :
    acc.data <+: (String.intercalate.go acc sep parts).data := by
  induction parts generalizing acc with
  | nil => simp [String.intercalate.go]
  | cons p ps ih =>
    simp only [String.intercalate.go]
    refine List.IsPrefix.trans ?_ (ih _)
    simp [String.data_append]

/-- The joined payload starts with its first entry. -/
theorem intercalate_starts (sep first : String) (parts : List String) :
    first.data <+: (sep.intercalate (first :: parts)).data := by
  simp only [String.intercalate]
  exact intercalate_go_starts _ _ _

/-- The joined payload ends with its last entry. -/
theorem intercalate_ends (sep last : String) (parts : List String) :
    last.data <:+ (sep.intercalate (parts ++ [last])).data := by
  cases parts with
  | nil => simp [String.intercalate, String.intercalate.go]
  | cons p ps =>
    rw [intercalate_snoc _ _ _ (by simp)]
    exact ⟨_, (String.data_append _ _).symm⟩

theorem Shape_init (remoteAddr : String) (now : Time) : Shape (HandleWebSocket remoteAddr now) :=
  ⟨trivial, by simp [HandleWebSocket]⟩

theorem Shape_step (s : Session) (e : Event) (s1 : Session) (hs : Shape s)
    (h : step s e = some s1) : Shape s1 := by
  obtain ⟨hw0, hf⟩ := hs
  have hk := Step_of_step h
  cases hk with
  | hSend hp hh hc hlen => exact ⟨hw0, hf⟩
  | hPanic hp hh hc => exact ⟨hw0, hf⟩
  | readOk hp hr1 hm => exact ⟨hw0, hf⟩
  | readErr hp hr1 hm => exact ⟨hw0, hf⟩
  | rSend hp hh hc hlen => exact ⟨hw0, hf⟩
  | rPanic hp hh hc => exact ⟨hw0, hf⟩
  | recvMsg hp hw hb => exact ⟨trivial, hf⟩
  | recvClosed hp hw hb hc =>
    refine ⟨trivial, ?_⟩
    intro payload parts hmem
    simp [writerExit] at hmem
    exact hf _ _ hmem
  | nextOk hp hw =>
    refine ⟨?_, hf⟩
    simp [joined, String.intercalate, String.intercalate.go]
  | nextErr hp hw => exact ⟨trivial, hf⟩
  | sample hp hw =>
    refine ⟨?_, hf⟩
    rw [hw] at hw0
    exact hw0
  | drainMsg hp hw hb =>
    refine ⟨?_, hf⟩
    rw [hw] at hw0
    obtain ⟨h1, h2⟩ := hw0
    exact ⟨by rw [intercalate_snoc _ _ _ h2, h1], by simp⟩
  | drainClosed hp hw hb hc =>
    refine ⟨?_, hf⟩
    rw [hw] at hw0
    obtain ⟨h1, h2⟩ := hw0
    exact ⟨by rw [intercalate_snoc _ _ _ h2, h1], by simp⟩
  | closeOk hp hw =>
    refine ⟨trivial, ?_⟩
    rw [hw] at hw0
    intro payload parts hmem
    simp only [List.mem_append, List.mem_singleton, Frame.text.injEq] at hmem
    rcases hmem with hmem | ⟨rfl, rfl⟩
    · exact hf _ _ hmem
    · exact hw0
  | closeErr hp hw =>
    refine ⟨trivial, ?_⟩
    rw [hw] at hw0
    intro payload parts hmem
    simp only [writerExit, List.mem_append, List.mem_singleton, Frame.text.injEq] at hmem
    rcases hmem with hmem | ⟨rfl, rfl⟩
    · exact hf _ _ hmem
    · exact hw0
  | tickOk hp hw =>
    refine ⟨by rw [hw]; trivial, ?_⟩
    intro payload parts hmem
    simp at hmem
    exact hf _ _ hmem
  | tickErr hp hw =>
    refine ⟨trivial, ?_⟩
    intro payload parts hmem
    simp [writerExit] at hmem
    exact hf _ _ hmem

theorem Shape_run {remoteAddr : String} {now : Time} {es : List Event} {s : Session}
    (h : run (HandleWebSocket remoteAddr now) es = some s) : Shape s :=
  run_invariant Shape_step es _ s (Shape_init remoteAddr now) h

theorem Draining_step {s0 s s1 : Session} {message : String} {queued : List String} {e : Event}
    (hd : Draining s0 message queued s) (he : ∀ ok, e ≠ .closeFrame ok)
    (h : step s e = some s1) : Draining s0 message queued s1 := by
  obtain ⟨taken, todo, added, hq, hw0, hb0, hf, hen⟩ := hd
  have hk := Step_of_step h
  cases hk with
  | hSend hp hh hc hlen =>
    rename_i msg
    exact ⟨taken, todo, added ++ [msg], hq, hw0, by simp [hb0], hf, by simp [hen]⟩
  | hPanic hp hh hc => exact ⟨taken, todo, added, hq, hw0, hb0, hf, hen⟩
  | readOk hp hr1 hm => exact ⟨taken, todo, added, hq, hw0, hb0, hf, hen⟩
  | readErr hp hr1 hm => exact ⟨taken, todo, added, hq, hw0, hb0, hf, hen⟩
  | rSend hp hh hc hlen =>
    rename_i msg
    exact ⟨taken, todo, added ++ [msg], hq, hw0, by simp [hb0], hf, by simp [hen]⟩
  | rPanic hp hh hc => exact ⟨taken, todo, added, hq, hw0, hb0, hf, hen⟩
  | recvMsg hp hw hb => rw [hw] at hw0; cases hw0
  | recvClosed hp hw hb hc => rw [hw] at hw0; cases hw0
  | nextOk hp hw => rw [hw] at hw0; cases hw0
  | nextErr hp hw => rw [hw] at hw0; cases hw0
  | sample hp hw => rw [hw] at hw0; cases hw0
  | drainMsg hp hw hb =>
    rename_i buf parts left v tail
    rw [hw] at hw0
    injection hw0 with e1 e2 e3
    cases todo with
    | nil => simp at e3
    | cons q todo1 =>
      rw [hb] at hb0
      simp only [List.cons_append, List.cons.injEq] at hb0
      obtain ⟨rfl, rfl⟩ := hb0
      refine ⟨taken ++ [v], todo1, added, by simp [hq], ?_, rfl, hf, hen⟩
      have hj : "\n".intercalate ((message :: taken) ++ [v]) =
          "\n".intercalate (message :: taken) ++ "\n" ++ v := intercalate_snoc _ _ _ (by simp)
      simp only [List.length_cons, Nat.add_right_cancel_iff] at e3
      simp only [List.cons_append] at hj
      simp [e1, e2, e3, hj]
  | drainClosed hp hw hb hc =>
    rw [hw] at hw0
    injection hw0 with e1 e2 e3
    cases todo with
    | nil => simp at e3
    | cons q todo1 => simp [hb] at hb0
  | closeOk hp hw => exact absurd rfl (he true)
  | closeErr hp hw => exact absurd rfl (he false)
  | tickOk hp hw => rw [hw] at hw0; cases hw0
  | tickErr hp hw => rw [hw] at hw0; cases hw0

theorem Draining_run {s0 : Session} {message : String} {queued : List String} :
    ∀ (es : List Event) (s s1 : Session), Draining s0 message queued s →
      (∀ ok, Event.closeFrame ok ∉ es) → run s es = some s1 → Draining s0 message queued s1 := by
  intro es
  induction es with
  | nil =>
    intro s s1 hd _ h
    simp only [run, Option.some.injEq] at h
    exact h ▸ hd
  | cons e es ih =>
    intro s s1 hd hn h
    obtain ⟨s2, h2, h3⟩ := run_cons_eq h
    refine ih s2 s1 (Draining_step hd ?_ h2) (fun ok hm => hn ok (List.mem_cons_of_mem _ hm)) h3
    intro ok hk
    exact hn ok (by simp [hk])

/-- With only `writePump` running, the loop receives exactly the entries it
planned for and leaves behind what was queued after them. -/
theorem drain_alone (todo added : List String) :
    ∀ (s : Session) (buf : String) (parts : List String), s.panicked = false →
      s.writer = .draining buf parts todo.length → s.send.buf = todo ++ added →
      ∃ s1, run s (List.replicate todo.length .drain) = some s1 ∧ s1.panicked = false ∧
        s1.writer = .draining (todo.foldl (fun acc q => acc ++ "\n" ++ q) buf) (parts ++ todo) 0 ∧
        s1.send.buf = added ∧ s1.frames = s.frames ∧ s1.enqueued = s.enqueued := by
  induction todo with
  | nil =>
    intro s buf parts hp hw hb
    exact ⟨s, rfl, hp, by simpa using hw, by simpa using hb, rfl, rfl⟩
  | cons q todo ih =>
    intro s buf parts hp hw hb
    have hs : step s .drain = some { s with
        send := { s.send with buf := todo ++ added }
        writer := .draining (buf ++ "\n" ++ q) (parts ++ [q]) todo.length } := by
      simp [step, sendWelcome, readPump, writePump, hp, hw, Chan.tryRecv, hb]
    obtain ⟨s1, h1, h2, h3, h4, h5, h6⟩ := ih { s with
        send := { s.send with buf := todo ++ added }
        writer := .draining (buf ++ "\n" ++ q) (parts ++ [q]) todo.length }
      (buf ++ "\n" ++ q) (parts ++ [q]) hp rfl rfl
    refine ⟨s1, ?_, h2, ?_, h4, h5, h6⟩
    · simp only [List.length_cons, List.replicate_succ, run, hs, Option.some_bind]
      exact h1
    · simpa using h3

theorem foldl_eq_intercalate (message : String) (queued : List String) :
    queued.foldl (fun acc q => acc ++ "\n" ++ q) message = "\n".intercalate (message :: queued) := by
  simp only [String.intercalate]
  induction queued generalizing message with
  | nil => rfl
  | cons q qs ih => simp [String.intercalate.go, ih]

/-- C2: at the instant `writePump` samples `len(c.send)`, with the received
message `M` written to `w` and `qs` the content of the queue, (1) `writePump`
running alone completes the frame, and (2) under every interleaving of the
other goroutines up to `w.Close()`, the text message written has payload `M`
followed by a newline and an entry for each element of `qs`, in queue order,
that is the newline-join of `M :: qs` (just `M` when `qs` is empty); exactly
the entries of `qs` were received, so the queue then holds what was enqueued
after the sample and nothing else. The payload starts with `M` and ends with
its last entry: no separator leads or trails. -/
theorem writePump_coalesces_queue (s : Session) (M : String) (qs : List String)
    (hp : s.panicked = false) (hw : s.writer = .opened M [M]) (hq : s.send.buf = qs) :
    (∃ s1, run s (.sample :: List.replicate qs.length .drain ++ [.closeFrame true]) = some s1 ∧
      s1.frames = s.frames ++ [.text ("\n".intercalate (M :: qs)) (M :: qs)] ∧
      s1.send.buf = [] ∧ s1.writer = .select) ∧
    (∀ (es : List Event) (ok : Bool) (s1 : Session), (∀ b, Event.closeFrame b ∉ es) →
      run s (.sample :: es ++ [.closeFrame ok]) = some s1 →
      s1.frames = s.frames ++ [.text ("\n".intercalate (M :: qs)) (M :: qs)] ∧
      s1.enqueued = s.enqueued ++ s1.send.buf) ∧
    "\n".intercalate (M :: qs) = qs.foldl (fun acc q => acc ++ "\n" ++ q) M ∧
    M.data <+: ("\n".intercalate (M :: qs)).data ∧
    ((M :: qs).getLast (by simp)).data <:+ ("\n".intercalate (M :: qs)).data := by
  have hs : step s .sample = some { s with writer := .draining M [M] qs.length } := by
    simp [step, sendWelcome, readPump, writePump, hp, hw, Chan.len, hq]
  refine ⟨?_, ?_, (foldl_eq_intercalate M qs).symm, intercalate_starts _ _ _, ?_⟩
  · obtain ⟨s1, h1, h2, h3, h4, h5, h6⟩ :=
      drain_alone qs [] { s with writer := .draining M [M] qs.length } M [M] hp rfl (by simp [hq])
    have hc : step s1 (.closeFrame true) =
        some { s1 with frames := s1.frames ++ [.text ("\n".intercalate (M :: qs)) (M :: qs)],
                       writer := .select } := by
      simp [step, sendWelcome, readPump, writePump, h2, h3, foldl_eq_intercalate]
    refine ⟨{ s1 with frames := s1.frames ++ [.text ("\n".intercalate (M :: qs)) (M :: qs)],
                      writer := .select }, ?_, ?_, ?_, ?_⟩
    · simp only [List.cons_append, run, hs, Option.some_bind]
      exact run_append_of h1 (by simp only [run, hc, Option.some_bind])
    · simp [h5]
    · simp [h4]
    · rfl
  · intro es ok s1 hn h
    obtain ⟨s2, h2, h3⟩ := run_cons_eq h
    rw [hs] at h2
    injection h2 with h2
    subst h2
    obtain ⟨s3, h4, h5⟩ := run_append_eq h3
    have hd0 : Draining s M qs { s with writer := .draining M [M] qs.length } :=
      ⟨[], qs, [], rfl, by simp [String.intercalate, String.intercalate.go], by simp [hq], rfl,
        by simp⟩
    obtain ⟨taken, todo, added, e1, e2, e3, e4, e5⟩ := Draining_run es _ s3 hd0 hn h4
    obtain ⟨s4, h6, h7⟩ := run_cons_eq h5
    simp only [run, Option.some.injEq] at h7
    subst h7
    have hk := Step_of_step h6
    cases hk with
    | closeOk hp1 hw1 =>
      rw [hw1] at e2
      injection e2 with a1 a2 a3
      have ht : todo = [] := List.length_eq_zero.mp a3.symm
      subst ht
      simp only [List.append_nil] at e1
      subst e1
      simp [a1, a2, e4, e5, e3]
    | closeErr hp1 hw1 =>
      rw [hw1] at e2
      injection e2 with a1 a2 a3
      have ht : todo = [] := List.length_eq_zero.mp a3.symm
      subst ht
      simp only [List.append_nil] at e1
      subst e1
      simp [a1, a2, e4, e5, e3, writerExit]
  · cases qs using List.reverseRecOn with
    | nil => simp [String.intercalate, String.intercalate.go]
    | append_singleton qs q _ =>
      have : (M :: (qs ++ [q])) = (M :: qs) ++ [q] := rfl
      simp only [this, List.getLast_append_singleton]
      exact intercalate_ends _ _ _

theorem firstText_textParts {fs : List Frame} {payload : String} {parts : List String}
    (h : firstText fs = some (payload, parts)) :
    Frame.text payload parts ∈ fs ∧ ∃ more, textParts fs = parts :: more := by
  induction fs with
  | nil => simp [firstText] at h
  | cons f fs ih =>
    cases f with
    | text p q =>
      simp only [firstText, Option.some.injEq, Prod.mk.injEq] at h
      obtain ⟨rfl, rfl⟩ := h
      exact ⟨by simp, _, rfl⟩
    | ping =>
      obtain ⟨h1, more, h2⟩ := ih (by simpa [firstText] using h)
      exact ⟨List.mem_cons_of_mem _ h1, more, by simpa [textParts] using h2⟩
    | close p =>
      obtain ⟨h1, more, h2⟩ := ih (by simpa [firstText] using h)
      exact ⟨List.mem_cons_of_mem _ h1, more, by simpa [textParts] using h2⟩

/-- Once `writePump` has returned it writes nothing more. -/
theorem writer_done_step (s : Session) (e : Event) (s1 : Session)
    (hs : s.writer = .done) (h : step s e = some s1) :
    s1.writer = .done ∧ s1.frames = s.frames := by
  have hk := Step_of_step h
  cases hk <;> simp_all [writerExit, readerExit]

theorem writer_done_run {s s1 : Session} {es : List Event} (hs : s.writer = .done)
    (h : run s es = some s1) : s1.writer = .done ∧ s1.frames = s.frames :=
  run_invariant (P := fun x => x.writer = .done ∧ x.frames = s.frames)
    (fun a e b ha hab => by
      obtain ⟨h1, h2⟩ := writer_done_step a e b ha.1 hab
      exact ⟨h1, h2.trans ha.2⟩) es s s1 ⟨hs, rfl⟩ h

theorem AfterReader_step (s0 : Session) (s : Session) (e : Event) (s1 : Session)
    (hs : AfterReader s0 s) (h : step s e = some s1) : AfterReader s0 s1 := by
  obtain ⟨h1, h2, h3⟩ := hs
  have hk := Step_of_step h
  cases hk with
  | hSend hp hh hc hlen =>
    rename_i msg
    refine ⟨h1, h2, Or.inr ?_⟩
    rcases h3 with ⟨h4, h5⟩ | ⟨m, h4, h5, h6⟩
    · exact ⟨msg, by rw [← h5]; exact hh, rfl, by simp [h4]⟩
    · rw [h5] at hh; cases hh
  | hPanic hp hh hc => exact ⟨h1, h2, h3⟩
  | readOk hp hr1 hm => rw [h1] at hr1; cases hr1
  | readErr hp hr1 hm => rw [h1] at hr1; cases hr1
  | rSend hp hh hc hlen => rw [h1] at hh; cases hh
  | rPanic hp hh hc => rw [h1] at hh; cases hh
  | recvMsg hp hw hb => exact ⟨h1, h2, h3⟩
  | recvClosed hp hw hb hc => exact ⟨h1, rfl, h3⟩
  | nextOk hp hw => exact ⟨h1, h2, h3⟩
  | nextErr hp hw => exact ⟨h1, rfl, h3⟩
  | sample hp hw => exact ⟨h1, h2, h3⟩
  | drainMsg hp hw hb => exact ⟨h1, h2, h3⟩
  | drainClosed hp hw hb hc => exact ⟨h1, h2, h3⟩
  | closeOk hp hw => exact ⟨h1, h2, h3⟩
  | closeErr hp hw => exact ⟨h1, rfl, h3⟩
  | tickOk hp hw => exact ⟨h1, h2, h3⟩
  | tickErr hp hw => exact ⟨h1, rfl, h3⟩

theorem Stuck_step (s0 : Session) (hfull : s0.send.cap ≤ s0.send.buf.length)
    (s : Session) (e : Event) (s1 : Session)
    (hs : Stuck s0 s) (h : step s e = some s1) : Stuck s0 s1 := by
  obtain ⟨h1, h2, h3, h4⟩ := hs
  have hk := Step_of_step h
  cases hk with
  | hSend hp hh hc hlen => rw [h2] at hlen; omega
  | hPanic hp hh hc => exact ⟨h1, h2, h3, h4⟩
  | readOk hp hr1 hm =>
    refine ⟨h1, h2, ?_, h4⟩
    intro r hr
    rw [h3 r hr] at hr1
    cases hr1
  | readErr hp hr1 hm =>
    refine ⟨h1, h2, ?_, h4⟩
    intro r hr
    rw [h3 r hr] at hr1
    cases hr1
  | rSend hp hh hc hlen => rw [h2] at hlen; omega
  | rPanic hp hh hc => exact ⟨h1, h2, h3, h4⟩
  | recvMsg hp hw hb => rw [h1] at hw; cases hw
  | recvClosed hp hw hb hc => rw [h1] at hw; cases hw
  | nextOk hp hw => rw [h1] at hw; cases hw
  | nextErr hp hw => rw [h1] at hw; cases hw
  | sample hp hw => rw [h1] at hw; cases hw
  | drainMsg hp hw hb => rw [h1] at hw; cases hw
  | drainClosed hp hw hb hc => rw [h1] at hw; cases hw
  | closeOk hp hw => rw [h1] at hw; cases hw
  | closeErr hp hw => rw [h1] at hw; cases hw
  | tickOk hp hw => rw [h1] at hw; cases hw
  | tickErr hp hw => rw [h1] at hw; cases hw

/-- The handler either still has to send the welcome message or is done. -/
theorem handler_step (w : String) (s : Session) (e : Event) (s1 : Session)
    (hs : s.handler = .sending w ∨ s.handler = .done) (h : step s e = some s1) :
    s1.handler = .sending w ∨ s1.handler = .done := by
  have hk := Step_of_step h
  cases hk <;> simp_all [writerExit, readerExit]

theorem writePump_coalesces_queue_witness :
    ∃ s1, run samplingState (.sample :: List.replicate 2 .drain ++ [.closeFrame true]) = some s1 ∧
      s1.frames = [.text
        "Welcome! Your client ID is: 10.0.0.1:5000-1700000000\n[22:13:21] Echo: a\n[22:13:22] Echo: b"
        ["Welcome! Your client ID is: 10.0.0.1:5000-1700000000", "[22:13:21] Echo: a",
          "[22:13:22] Echo: b"]] ∧
      s1.send.buf = [] ∧ s1.writer = .select :=
  (writePump_coalesces_queue samplingState "Welcome! Your client ID is: 10.0.0.1:5000-1700000000"
    ["[22:13:21] Echo: a", "[22:13:22] Echo: b"] rfl rfl rfl).1

theorem sampling_reachable :
    run exampleSession (abcTrace.take 7) = some samplingState := by
  decide

/-- C3: in every interleaving of a session, with or without write errors, the
queue entries carried by the text messages, listed in the order the messages
are written and inside a message in their order in it, form a prefix of the
sequence of completed enqueues: nothing is reordered, duplicated or skipped.
While `writePump` runs, the enqueue sequence is exactly what was written, then
what `writePump` holds, then what is queued. Every text payload is the
newline-join of the entries it carries. -/
theorem writePump_fifo_order (remoteAddr : String) (now : Time) (es : List Event) (s : Session)
    (h : run (HandleWebSocket remoteAddr now) es = some s) :
    delivered s <+: s.enqueued ∧
    (s.writer ≠ .done → s.enqueued = delivered s ++ inflight s.writer ++ s.send.buf) ∧
    (∀ payload parts, Frame.text payload parts ∈ s.frames →
      payload = "\n".intercalate parts ∧ parts ≠ []) := by
  obtain ⟨_, ⟨rest, ho, hr⟩, _⟩ := Fifo_run h
  refine ⟨⟨inflight s.writer ++ rest, by simp [ho]⟩, ?_, (Shape_run h).frames⟩
  intro hw
  rw [ho, hr hw]

theorem writePump_fifo_order_witness :
    run exampleSession abcTrace ≠ none ∧
    ∀ s, run exampleSession abcTrace = some s →
      delivered s = ["Welcome! Your client ID is: 10.0.0.1:5000-1700000000",
        "[22:13:21] Echo: a", "[22:13:22] Echo: b", "[22:13:23] Echo: c"] ∧
      delivered s <+: s.enqueued := by
  refine ⟨by decide, ?_⟩
  intro s hs
  refine ⟨?_, (writePump_fifo_order "10.0.0.1:5000" ⟨1700000000, 0⟩ abcTrace s hs).1⟩
  have hd : (run exampleSession abcTrace).map delivered =
      some ["Welcome! Your client ID is: 10.0.0.1:5000-1700000000",
        "[22:13:21] Echo: a", "[22:13:22] Echo: b", "[22:13:23] Echo: c"] := by decide
  rw [hs] at hd
  simpa using hd

/-- C4: when `ReadMessage` returns an error, `readPump` enqueues nothing for
that read (channel and enqueue history unchanged), closes the connection and
returns; in every continuation it stays returned, it neither reads nor sends
again, and the only enqueue still possible is the one of the handler. A
deadline timeout, a normal close and an abnormal close are such errors, and so
is every message longer than `maxMessageSize` = 512 bytes, which is therefore
never echoed. -/
theorem readPump_read_error_terminates (s : Session) (incoming : Incoming) (now : Time)
    (err : ReadError) (hp : s.panicked = false) (hr : s.reader = .reading)
    (herr : ReadMessage maxMessageSize incoming = .error err) :
    step s (.read incoming now) = some (readerExit s) ∧
    (readerExit s).send = s.send ∧ (readerExit s).enqueued = s.enqueued ∧
    (readerExit s).reader = .done ∧ (readerExit s).connClosed = true ∧
    (∀ es s1, run (readerExit s) es = some s1 →
      s1.reader = .done ∧ s1.connClosed = true ∧
      (∀ inc t, step s1 (.read inc t) = none) ∧ step s1 .readerSend = none ∧
      (s1.enqueued = s.enqueued ∨
        ∃ msg, s.handler = .sending msg ∧ s1.enqueued = s.enqueued ++ [msg])) ∧
    ReadMessage maxMessageSize .deadline = .error .timeout ∧
    ReadMessage maxMessageSize .closeNormal = .error .closeNormal ∧
    ReadMessage maxMessageSize .closeAbnormal = .error .closeAbnormal ∧
    (∀ messageType M, maxMessageSize < M.utf8ByteSize →
      ReadMessage maxMessageSize (.data messageType M) = .error .readLimit) := by
  refine ⟨by simp [step, sendWelcome, readPump, writePump, hp, hr, herr], rfl, rfl, rfl, rfl, ?_, rfl, rfl, rfl, ?_⟩
  · intro es s1 h
    have hinv := run_invariant (AfterReader_step (readerExit s)) es (readerExit s) s1
      ⟨rfl, rfl, Or.inl ⟨rfl, rfl⟩⟩ h
    obtain ⟨h1, h2, h3⟩ := hinv
    refine ⟨h1, h2, ?_, ?_, ?_⟩
    · intro inc t
      simp [step, sendWelcome, readPump, writePump, h1]
    · simp [step, sendWelcome, readPump, writePump, h1]
    · rcases h3 with ⟨h4, _⟩ | ⟨msg, h4, _, h6⟩
      · exact Or.inl h4
      · exact Or.inr ⟨msg, h4, h6⟩
  · intro messageType M hM
    have h512 : 512 < M.utf8ByteSize := hM
    simp [ReadMessage, maxMessageSize, h512]

theorem oversized_size : oversized.utf8ByteSize = 513 := by
  decide

theorem oversized_rejected :
    ReadMessage maxMessageSize (.data 1 oversized) = .error .readLimit := by
  simp [ReadMessage, maxMessageSize, oversized_size]

theorem readPump_read_error_terminates_witness :
    oversized.utf8ByteSize = 513 ∧
    step exampleSession (.read (.data 1 oversized) ⟨1700000001, 0⟩) =
      some (readerExit exampleSession) ∧
    (readerExit exampleSession).enqueued = [] :=
  ⟨oversized_size,
    (readPump_read_error_terminates exampleSession (.data 1 oversized) ⟨1700000001, 0⟩ .readLimit
      rfl rfl oversized_rejected).1, rfl⟩

/-- C6: when the receive of the `select` finds the queue closed and empty
(it reports `ok = false`), `writePump` writes exactly one close message with
an empty payload and returns, stopping the ticker and closing the connection;
in every continuation the written frames stay the same, so no text message
and no ping follows. -/
theorem writePump_closed_queue_sends_close (s : Session)
    (hp : s.panicked = false) (hw : s.writer = .select)
    (hempty : s.send.buf = []) (hclosed : s.send.closed = true) :
    s.send.tryRecv = some (none, s.send) ∧
    ∃ s1, step s .recv = some s1 ∧
      s1.frames = s.frames ++ [.close ""] ∧ s1.writer = .done ∧
      s1.tickerStopped = true ∧ s1.connClosed = true ∧
      ∀ es s2, run s1 es = some s2 → s2.frames = s.frames ++ [.close ""] ∧ s2.writer = .done := by
  refine ⟨by simp [Chan.tryRecv, hempty, hclosed], ?_⟩
  refine ⟨writerExit { s with frames := s.frames ++ [.close ""] }, ?_, rfl, rfl, rfl, rfl, ?_⟩
  · simp [step, sendWelcome, readPump, writePump, hp, hw, Chan.tryRecv, hempty, hclosed]
  · intro es s2 h
    obtain ⟨h1, h2⟩ := writer_done_run (s := writerExit { s with frames := s.frames ++ [.close ""] })
      rfl h
    exact ⟨h2, h1⟩

theorem writePump_closed_queue_sends_close_witness :
    ∃ s1, step closedQueueState .recv = some s1 ∧ s1.frames = [.close ""] ∧ s1.writer = .done :=
  let ⟨s1, h1, h2, h3, _⟩ := (writePump_closed_queue_sends_close closedQueueState rfl rfl rfl rfl).2
  ⟨s1, h1, h2, h3⟩

theorem welcomeMsg_eq (remoteAddr : String) (now : Time) :
    welcomeMsg (clientIDOf remoteAddr now) =
      "Welcome! Your client ID is: " ++ remoteAddr ++ "-" ++ formatInt now.Unix := by
  simp [welcomeMsg, clientIDOf, String.append_assoc]

theorem handler_run {remoteAddr : String} {now : Time} {es : List Event} {s : Session}
    (h : run (HandleWebSocket remoteAddr now) es = some s) :
    s.handler = .sending (welcomeMsg (clientIDOf remoteAddr now)) ∨ s.handler = .done :=
  run_invariant (handler_step _) es _ s (Or.inl rfl) h

/-- C5, counterexample: for the upgrade of `10.0.0.1:5000` at Unix time
1700000000 there is an interleaving in which the first text message written
is the echo of "hi" (readPump enqueued it before the handler sent the welcome
message), and one in which the first text message is the welcome message
coalesced with that echo; neither payload is the welcome message. -/
theorem welcome_frame_not_always_first :
    (run exampleSession
        [.read (.data 1 "hi") ⟨1700000001, 0⟩, .readerSend, .recv, .nextWriter true, .sample,
          .closeFrame true, .handlerSend]).map (fun s => firstText s.frames) =
      some (some ("[22:13:21] Echo: hi", ["[22:13:21] Echo: hi"])) ∧
    (run exampleSession
        [.handlerSend, .recv, .nextWriter true, .read (.data 1 "hi") ⟨1700000001, 0⟩,
          .readerSend, .sample, .drain, .closeFrame true]).map (fun s => firstText s.frames) =
      some (some ("Welcome! Your client ID is: 10.0.0.1:5000-1700000000\n[22:13:21] Echo: hi",
        ["Welcome! Your client ID is: 10.0.0.1:5000-1700000000", "[22:13:21] Echo: hi"])) ∧
    "Welcome! Your client ID is: " ++ "10.0.0.1:5000" ++ "-" ++ formatInt 1700000000 =
      "Welcome! Your client ID is: 10.0.0.1:5000-1700000000" := by
  decide

/-- C5, amended: after a successful upgrade with remote address `A` at Unix
time `s` the handler has exactly one send to do, the message
`"Welcome! Your client ID is: " ++ A ++ "-" ++ decimal(s)`, and in every
interleaving it is either still to do or done. In every interleaving in which
that message is the first one enqueued, the first text message that
`writePump` writes starts with it, followed only by newline-separated queue
entries coalesced into the same message, and is exactly the welcome message
when nothing was coalesced. -/
theorem welcome_first_when_enqueued_first (remoteAddr : String) (now : Time)
    (es : List Event) (s : Session)
    (h : run (HandleWebSocket remoteAddr now) es = some s) :
    (HandleWebSocket remoteAddr now).handler =
      .sending ("Welcome! Your client ID is: " ++ remoteAddr ++ "-" ++ formatInt now.Unix) ∧
    (s.handler = .sending ("Welcome! Your client ID is: " ++ remoteAddr ++ "-" ++ formatInt now.Unix) ∨
      s.handler = .done) ∧
    (s.enqueued.head? =
        some ("Welcome! Your client ID is: " ++ remoteAddr ++ "-" ++ formatInt now.Unix) →
      ∀ payload parts, firstText s.frames = some (payload, parts) →
        ∃ rest,
          parts = ("Welcome! Your client ID is: " ++ remoteAddr ++ "-" ++ formatInt now.Unix) :: rest ∧
          payload = "\n".intercalate
            (("Welcome! Your client ID is: " ++ remoteAddr ++ "-" ++ formatInt now.Unix) :: rest) ∧
          ("Welcome! Your client ID is: " ++ remoteAddr ++ "-" ++ formatInt now.Unix).data
            <+: payload.data ∧
          (rest = [] →
            payload = "Welcome! Your client ID is: " ++ remoteAddr ++ "-" ++ formatInt now.Unix)) := by
  rw [← welcomeMsg_eq]
  refine ⟨rfl, handler_run h, ?_⟩
  intro hhead payload parts hfirst
  obtain ⟨hmem, more, hparts⟩ := firstText_textParts hfirst
  obtain ⟨hpay, hne⟩ := (Shape_run h).frames payload parts hmem
  obtain ⟨_, ⟨tail, ho, _⟩, _⟩ := Fifo_run h
  cases parts with
  | nil => exact absurd rfl hne
  | cons p rest =>
    have hp : p = welcomeMsg (clientIDOf remoteAddr now) := by
      rw [ho] at hhead
      simpa [delivered, hparts] using hhead
    subst hp
    refine ⟨rest, rfl, hpay, ?_, ?_⟩
    · rw [hpay]
      exact intercalate_starts _ _ _
    · intro hrest
      rw [hpay, hrest]
      rfl

theorem welcome_first_when_enqueued_first_witness :
    ∃ s, run exampleSession (abcTrace.take 11) = some s ∧
      firstText s.frames = some
        ("Welcome! Your client ID is: 10.0.0.1:5000-1700000000\n[22:13:21] Echo: a\n[22:13:22] Echo: b",
          ["Welcome! Your client ID is: 10.0.0.1:5000-1700000000", "[22:13:21] Echo: a",
            "[22:13:22] Echo: b"]) ∧
      ∃ rest, ["Welcome! Your client ID is: 10.0.0.1:5000-1700000000", "[22:13:21] Echo: a",
            "[22:13:22] Echo: b"] =
          ("Welcome! Your client ID is: " ++ "10.0.0.1:5000" ++ "-" ++ formatInt 1700000000) :: rest := by
  have hmap : (run exampleSession (abcTrace.take 11)).map
      (fun s => (s.enqueued.head?, firstText s.frames)) =
      some (some ("Welcome! Your client ID is: " ++ "10.0.0.1:5000" ++ "-" ++ formatInt 1700000000),
        some ("Welcome! Your client ID is: 10.0.0.1:5000-1700000000\n[22:13:21] Echo: a\n[22:13:22] Echo: b",
          ["Welcome! Your client ID is: 10.0.0.1:5000-1700000000", "[22:13:21] Echo: a",
            "[22:13:22] Echo: b"])) := by decide
  cases hrun : run exampleSession (abcTrace.take 11) with
  | none => simp [hrun] at hmap
  | some s =>
    simp only [hrun, Option.map_some', Option.some.injEq, Prod.mk.injEq] at hmap
    obtain ⟨h1, h2⟩ := hmap
    obtain ⟨rest, h3, _⟩ :=
      (welcome_first_when_enqueued_first "10.0.0.1:5000" ⟨1700000000, 0⟩ (abcTrace.take 11) s
        hrun).2.2 h1 _ _ h2
    exact ⟨s, rfl, h2, rest, h3⟩

/-- No event is enabled when the handler is done, `readPump` stands at its
send, `writePump` has returned and the queue is full. -/
theorem deadlock (s : Session) (r : String) (hh : s.handler = .done)
    (hr : s.reader = .sending r) (hw : s.writer = .done) (hc : s.send.closed = false)
    (hfull : s.send.cap ≤ s.send.buf.length) (e : Event) : step s e = none := by
  have hlt : ¬ s.send.buf.length < s.send.cap := by omega
  cases hp : s.panicked with
  | true => simp [step, sendWelcome, readPump, writePump, hp]
  | false => cases e <;> simp [step, sendWelcome, readPump, writePump, hp, hh, hr, hw, hc, Chan.trySend, hlt]

theorem floodTrace_result :
    (run exampleSession floodTrace).map
      (fun s => ((s.send.buf.length, s.send.cap, s.send.closed, s.enqueued.length),
        (s.writer, s.reader, s.handler))) =
      some ((256, 256, false, 257), (.done, .sending "[22:13:21] Echo: x", .done)) := by
  decide

/-- C7, counterexample: the interleaving `floodTrace` reaches a state in
which the queue holds 256 entries, `writePump` has returned, and `readPump`
stands at the send of a 257th echo; in that state no event is enabled, so
every continuation is empty: the send never completes and the message is not
dropped. -/
theorem enqueue_blocks_forever_on_full_queue :
    ∃ s, run exampleSession floodTrace = some s ∧
      s.send.buf.length = 256 ∧ s.send.cap = 256 ∧ s.enqueued.length = 257 ∧ s.writer = .done ∧
      s.reader = .sending "[22:13:21] Echo: x" ∧
      (∀ e, step s e = none) ∧
      (∀ e es, run s (e :: es) = none) := by
  have hmap := floodTrace_result
  cases hrun : run exampleSession floodTrace with
  | none => simp [hrun] at hmap
  | some s =>
    simp only [hrun, Option.map_some', Option.some.injEq, Prod.mk.injEq] at hmap
    obtain ⟨⟨h1, h2, h6, h7⟩, h3, h4, h5⟩ := hmap
    have hdead := deadlock s _ h5 h4 h3 h6 (by omega)
    exact ⟨s, rfl, h1, h2, h7, h3, h4, hdead, fun e es => by simp [run, hdead e]⟩

/-- C7, amended: in every reachable state the channel is open, of capacity
256 and within capacity, and the program has not crashed. A send by
`readPump` or by the handler completes at once, appending its message to the
queue, when the queue holds fewer than 256 entries, and is not enabled when
it holds 256. When the queue holds 256 entries and `writePump` has returned,
every continuation leaves the queue as it is and the sender at its send: the
message is neither enqueued nor dropped. -/
theorem enqueue_completes_or_blocks (remoteAddr : String) (now : Time) (es : List Event)
    (s : Session) (h : run (HandleWebSocket remoteAddr now) es = some s) :
    s.send.cap = 256 ∧ s.send.closed = false ∧ s.panicked = false ∧ s.send.buf.length ≤ 256 ∧
    (∀ r, s.reader = .sending r →
      (s.send.buf.length < 256 →
        step s .readerSend = some { s with
          send := { s.send with buf := s.send.buf ++ [r] }
          reader := .reading
          enqueued := s.enqueued ++ [r] }) ∧
      (s.send.buf.length = 256 → step s .readerSend = none)) ∧
    (∀ m, s.handler = .sending m →
      (s.send.buf.length < 256 →
        step s .handlerSend = some { s with
          send := { s.send with buf := s.send.buf ++ [m] }
          handler := .done
          enqueued := s.enqueued ++ [m] }) ∧
      (s.send.buf.length = 256 → step s .handlerSend = none)) ∧
    (s.send.buf.length = 256 → s.writer = .done →
      ∀ es1 s1, run s es1 = some s1 →
        s1.send = s.send ∧ (∀ r, s.reader = .sending r → s1.reader = .sending r) ∧
        (∀ m, s.handler = .sending m → s1.handler = .sending m)) := by
  obtain ⟨h1, h2, h3, h4⟩ := Sound_run h
  have hcap : s.send.cap = 256 := h3
  refine ⟨hcap, h1, h2, by omega, ?_, ?_, ?_⟩
  · intro r hr
    constructor
    · intro hlt
      simp [step, sendWelcome, readPump, writePump, h2, hr, Chan.trySend, h1, hcap, hlt]
    · intro hfull
      simp [step, sendWelcome, readPump, writePump, h2, hr, Chan.trySend, h1, hcap, hfull]
  · intro m hm
    constructor
    · intro hlt
      simp [step, sendWelcome, readPump, writePump, h2, hm, Chan.trySend, h1, hcap, hlt]
    · intro hfull
      simp [step, sendWelcome, readPump, writePump, h2, hm, Chan.trySend, h1, hcap, hfull]
  · intro hfull hw es1 s1 hrun
    have hinv := run_invariant (Stuck_step s (by omega)) es1 s s1
      ⟨hw, rfl, fun _ hr => hr, fun _ hm => hm⟩ hrun
    exact hinv.2

theorem enqueue_completes_or_blocks_witness :
    ∃ s, run exampleSession [.read (.data 1 "hi") ⟨1700000001, 0⟩] = some s ∧
      step s .readerSend = some { s with
        send := { s.send with buf := s.send.buf ++ ["[22:13:21] Echo: hi"] }
        reader := .reading
        enqueued := s.enqueued ++ ["[22:13:21] Echo: hi"] } := by
  have hmap : (run exampleSession [.read (.data 1 "hi") ⟨1700000001, 0⟩]).map
      (fun s => (s.reader, s.send.buf.length)) = some (.sending "[22:13:21] Echo: hi", 0) := by
    decide
  cases hrun : run exampleSession [.read (.data 1 "hi") ⟨1700000001, 0⟩] with
  | none => simp [hrun] at hmap
  | some s =>
    simp only [hrun, Option.map_some', Option.some.injEq, Prod.mk.injEq] at hmap
    obtain ⟨h1, h2⟩ := hmap
    exact ⟨s, rfl,
      ((enqueue_completes_or_blocks "10.0.0.1:5000" ⟨1700000000, 0⟩ _ s hrun).2.2.2.2.1 _ h1).1
        (by omega)⟩

theorem Format150405_digits (t : Time) :
    t.Format150405 = String.mk
      [Nat.digitChar (t.Hour / 10), Nat.digitChar (t.Hour % 10), ':',
        Nat.digitChar (t.Minute / 10), Nat.digitChar (t.Minute % 10), ':',
        Nat.digitChar (t.Sec / 10), Nat.digitChar (t.Sec % 10)] := by
  obtain ⟨hh, hm, hs⟩ := clock_bounds t
  have e1 : t.Hour / 10 % 10 = t.Hour / 10 := by omega
  have e2 : t.Minute / 10 % 10 = t.Minute / 10 := by omega
  have e3 : t.Sec / 10 % 10 = t.Sec / 10 := by omega
  apply String.ext
  simp [Time.Format150405, pad2, String.data_append, e1, e2, e3]

theorem clock_sum (t : Time) :
    ((t.Hour * 3600 + t.Minute * 60 + t.Sec : Nat) : Int) = (t.unix + t.zoneOffset) % 86400 := by
  have h0 : 0 ≤ (t.unix + t.zoneOffset) % 86400 := Int.emod_nonneg _ (by norm_num)
  have hs : t.Hour * 3600 + t.Minute * 60 + t.Sec = t.secondsOfDay := by
    unfold Time.Hour Time.Minute Time.Sec
    omega
  rw [hs]
  unfold Time.secondsOfDay
  exact Int.toNat_of_nonneg h0

theorem Pending_step {s0 s s1 : Session} {r : String} {e : Event}
    (hs : Pending s0 r s) (he : e ≠ .readerSend) (h : step s e = some s1) : Pending s0 r s1 := by
  obtain ⟨h1, h3⟩ := hs
  have hk := Step_of_step h
  cases hk with
  | hSend hp hh hc hlen =>
    rename_i msg
    refine ⟨h1, Or.inr ?_⟩
    rcases h3 with ⟨h4, h5⟩ | ⟨m, h4, h5, h6⟩
    · exact ⟨msg, by rw [← h5]; exact hh, rfl, by simp [h4]⟩
    · rw [h5] at hh
      cases hh
  | hPanic hp hh hc => exact ⟨h1, h3⟩
  | readOk hp hr1 hm => rw [h1] at hr1; cases hr1
  | readErr hp hr1 hm => rw [h1] at hr1; cases hr1
  | rSend hp hh hc hlen => exact absurd rfl he
  | rPanic hp hh hc => exact absurd rfl he
  | recvMsg hp hw hb => exact ⟨h1, h3⟩
  | recvClosed hp hw hb hc => exact ⟨h1, h3⟩
  | nextOk hp hw => exact ⟨h1, h3⟩
  | nextErr hp hw => exact ⟨h1, h3⟩
  | sample hp hw => exact ⟨h1, h3⟩
  | drainMsg hp hw hb => exact ⟨h1, h3⟩
  | drainClosed hp hw hb hc => exact ⟨h1, h3⟩
  | closeOk hp hw => exact ⟨h1, h3⟩
  | closeErr hp hw => exact ⟨h1, h3⟩
  | tickOk hp hw => exact ⟨h1, h3⟩
  | tickErr hp hw => exact ⟨h1, h3⟩

theorem Pending_run (s0 : Session) (r : String) :
    ∀ (es : List Event) (s s1 : Session), Pending s0 r s → Sound s →
      Event.readerSend ∉ es → run s es = some s1 → Pending s0 r s1 ∧ Sound s1 := by
  intro es
  induction es with
  | nil =>
    intro s s1 hd hsnd _ h
    simp only [run, Option.some.injEq] at h
    exact h ▸ ⟨hd, hsnd⟩
  | cons e es ih =>
    intro s s1 hd hsnd hn h
    obtain ⟨s2, h2, h3⟩ := run_cons_eq h
    refine ih s2 s1 (Pending_step hd ?_ h2) (Sound_step s e s2 hsnd h2)
      (fun hm => hn (List.mem_cons_of_mem _ hm)) h3
    intro hk
    exact hn (by simp [hk])

theorem fillTrace_result :
    (run exampleSession fillTrace).map
      (fun s => ((s.send.buf.length, s.enqueued.length, s.connClosed), (s.writer, s.reader))) =
      some ((256, 257, false),
        (.draining "Welcome! Your client ID is: 10.0.0.1:5000-1700000000"
          ["Welcome! Your client ID is: 10.0.0.1:5000-1700000000"] 0, .reading)) := by
  decide

theorem lastTrace_result :
    (run exampleSession (fillTrace ++ lastTrace)).map
      (fun s => ((s.send.buf.length, s.send.cap, s.send.closed,
          decide ("[22:13:22] Echo: LAST" ∈ s.enqueued)),
        (s.writer, s.reader, s.handler))) =
      some ((256, 256, false, false), (.done, .sending "[22:13:22] Echo: LAST", .done)) := by
  decide

/-- C1, counterexample: after the interleaving `fillTrace` the queue holds 256
entries, the connection is open and `readPump` is at `ReadMessage`; the peer's
message "LAST" is read successfully at 22:13:22, and the pending write of
`writePump` then fails. In the state reached `readPump` stands at the send of
"[22:13:22] Echo: LAST", that response is not in the enqueue history, and no
event is enabled: for this successfully read message no response is ever
enqueued. -/
theorem echo_of_read_message_never_enqueued :
    ReadMessage maxMessageSize (.data 1 "LAST") = .ok (1, "LAST") ∧
    ∃ s0 s, run exampleSession fillTrace = some s0 ∧ s0.reader = .reading ∧
      s0.connClosed = false ∧ s0.send.buf.length = 256 ∧
      run s0 lastTrace = some s ∧
      s.reader = .sending "[22:13:22] Echo: LAST" ∧
      "[22:13:22] Echo: LAST" ∉ s.enqueued ∧ s.enqueued.length = s0.enqueued.length ∧
      (∀ e, step s e = none) ∧
      (∀ e es, run s (e :: es) = none) := by
  refine ⟨rfl, ?_⟩
  have hfill := fillTrace_result
  have hlast := lastTrace_result
  cases hrun0 : run exampleSession fillTrace with
  | none => simp [hrun0] at hfill
  | some s0 =>
    cases hrun : run exampleSession (fillTrace ++ lastTrace) with
    | none => simp [hrun] at hlast
    | some s =>
      simp only [hrun0, Option.map_some', Option.some.injEq, Prod.mk.injEq] at hfill
      simp only [hrun, Option.map_some', Option.some.injEq, Prod.mk.injEq,
        decide_eq_false_iff_not] at hlast
      obtain ⟨⟨f1, f2, f3⟩, f4, f5⟩ := hfill
      obtain ⟨⟨l1, l2, l3, l4⟩, l5, l6, l7⟩ := hlast
      obtain ⟨s0', h0', hrest⟩ := run_append_eq hrun
      rw [hrun0] at h0'
      injection h0' with h0'
      subst h0'
      have hdead := deadlock s _ l7 l6 l5 l3 (by omega)
      have hlen : s.enqueued.length = s0.enqueued.length := by
        obtain ⟨s1, hs1, hs2⟩ := run_cons_eq hrest
        obtain ⟨s2, hs3, hs4⟩ := run_cons_eq hs2
        simp only [run, Option.some.injEq] at hs4
        subst hs4
        have k1 := Step_of_step hs1
        have k2 := Step_of_step hs3
        cases k1 <;> cases k2 <;> simp_all [writerExit, readerExit]
      exact ⟨s0, s, rfl, f5, f3, f1, hrest, l6, l4, hlen, hdead,
        fun e es => by simp [run, hdead e]⟩

/-- C1, amended: in every reachable state in which `readPump` is at
`ReadMessage`, when the call returns a message `M` and the clock reads `now`,
`readPump` goes to the send of the response `"[" ++ stamp ++ "] Echo: " ++ M`
with the queue untouched, where `stamp` is two decimal digits for each of the
hour `hh` < 24, the minute `mm` < 60 and the second `ss` < 60 of the local
time of day (`hh * 3600 + mm * 60 + ss` is the Unix time plus the zone offset,
modulo 86400), separated by colons, 8 characters. In every continuation up to
that send `readPump` stays at it, reads nothing further and enqueues nothing;
the send appends exactly that one response and returns to reading when the
queue holds fewer than 256 entries, and is not enabled while it holds 256. The
response contains `"Echo: " ++ M` and ends with `M`. -/
theorem readPump_echo_response (remoteAddr : String) (now0 : Time) (es : List Event)
    (s : Session) (incoming : Incoming) (messageType : Nat) (M : String) (now : Time)
    (h : run (HandleWebSocket remoteAddr now0) es = some s) (hr : s.reader = .reading)
    (hread : ReadMessage maxMessageSize incoming = .ok (messageType, M)) :
    ∃ (hh mm ss : Nat) (stamp response : String),
      hh < 24 ∧ mm < 60 ∧ ss < 60 ∧
      ((hh * 3600 + mm * 60 + ss : Nat) : Int) = (now.unix + now.zoneOffset) % 86400 ∧
      stamp = String.mk
        [Nat.digitChar (hh / 10), Nat.digitChar (hh % 10), ':',
          Nat.digitChar (mm / 10), Nat.digitChar (mm % 10), ':',
          Nat.digitChar (ss / 10), Nat.digitChar (ss % 10)] ∧
      stamp.length = 8 ∧
      response = "[" ++ stamp ++ "] Echo: " ++ M ∧
      step s (.read incoming now) = some { s with reader := .sending response } ∧
      (∀ es1 s1, Event.readerSend ∉ es1 →
        run { s with reader := .sending response } es1 = some s1 →
        s1.reader = .sending response ∧
        (s1.enqueued = s.enqueued ∨
          ∃ msg, s.handler = .sending msg ∧ s1.enqueued = s.enqueued ++ [msg]) ∧
        (∀ inc t, step s1 (.read inc t) = none) ∧
        s1.send.buf.length ≤ 256 ∧
        (s1.send.buf.length < 256 →
          step s1 .readerSend = some { s1 with
            send := { s1.send with buf := s1.send.buf ++ [response] }
            reader := .reading
            enqueued := s1.enqueued ++ [response] }) ∧
        (s1.send.buf.length = 256 → step s1 .readerSend = none)) ∧
      ("Echo: " ++ M).data <:+: response.data ∧
      M.data <:+ response.data := by
  obtain ⟨b1, b2, b3⟩ := clock_bounds now
  have hsound := Sound_run h
  have hp := hsound.notPanicked
  have hstep : step s (.read incoming now) =
      some { s with reader := .sending ("[" ++ now.Format150405 ++ "] Echo: " ++ M) } := by
    simp [step, sendWelcome, readPump, writePump, hp, hr, hread, echoResponse]
  refine ⟨now.Hour, now.Minute, now.Sec, now.Format150405,
    "[" ++ now.Format150405 ++ "] Echo: " ++ M, b1, b2, b3, clock_sum now,
    Format150405_digits now, Format150405_length now, rfl, hstep, ?_, ?_, ?_⟩
  · intro es1 s1 hn hrun
    have hsound1 := Sound_step s _ _ hsound hstep
    obtain ⟨⟨p1, p2⟩, q1, q2, q3, q4⟩ :=
      Pending_run { s with reader := .sending ("[" ++ now.Format150405 ++ "] Echo: " ++ M) }
        ("[" ++ now.Format150405 ++ "] Echo: " ++ M) es1 _ s1 ⟨rfl, Or.inl ⟨rfl, rfl⟩⟩ hsound1 hn
        hrun
    have hcap : s1.send.cap = 256 := q3
    refine ⟨p1, ?_, ?_, by omega, ?_, ?_⟩
    · rcases p2 with ⟨p3, _⟩ | ⟨msg, p3, _, p5⟩
      · exact Or.inl p3
      · exact Or.inr ⟨msg, p3, p5⟩
    · intro inc t
      simp [step, sendWelcome, readPump, writePump, p1]
    · intro hlt
      simp [step, sendWelcome, readPump, writePump, q2, p1, Chan.trySend, q1, hcap, hlt]
    · intro hfull
      simp [step, sendWelcome, readPump, writePump, q2, p1, Chan.trySend, q1, hcap, hfull]
  · refine ⟨("[" ++ now.Format150405 ++ "] ").data, [], ?_⟩
    simp [String.data_append]
  · refine ⟨("[" ++ now.Format150405 ++ "] Echo: ").data, ?_⟩
    simp [String.data_append]

theorem readPump_echo_response_witness :
    step exampleSession (.read (.data 1 "hi") ⟨1700000001, 3600⟩) =
      some { exampleSession with reader := .sending "[23:13:21] Echo: hi" } ∧
    ∃ s1, run { exampleSession with reader := .sending "[23:13:21] Echo: hi" }
        [.handlerSend, .tick true] = some s1 ∧
      s1.send.buf = ["Welcome! Your client ID is: 10.0.0.1:5000-1700000000"] ∧
      step s1 .readerSend = some { s1 with
        send := { s1.send with buf := s1.send.buf ++ ["[23:13:21] Echo: hi"] }
        reader := .reading
        enqueued := s1.enqueued ++ ["[23:13:21] Echo: hi"] } := by
  obtain ⟨hh, mm, ss, stamp, response, b1, b2, b3, hsum, hstamp, _, hresp, hstep, hcont, _, _⟩ :=
    readPump_echo_response "10.0.0.1:5000" ⟨1700000000, 0⟩ [] exampleSession (.data 1 "hi") 1 "hi"
      ⟨1700000001, 3600⟩ rfl rfl rfl
  have hval : ((1700000001 : Int) + 3600) % 86400 = 83601 := by decide
  simp only [hval] at hsum
  have e1 : hh = 23 := by omega
  have e2 : mm = 13 := by omega
  have e3 : ss = 21 := by omega
  subst e1 e2 e3
  have hr : response = "[23:13:21] Echo: hi" := by
    rw [hresp, hstamp]
    decide
  subst hr
  refine ⟨hstep, ?_⟩
  have hmap : (run { exampleSession with reader := .sending "[23:13:21] Echo: hi" }
      [.handlerSend, .tick true]).map (fun s => s.send.buf) =
      some ["Welcome! Your client ID is: 10.0.0.1:5000-1700000000"] := by decide
  cases hrun : run { exampleSession with reader := .sending "[23:13:21] Echo: hi" }
      [.handlerSend, .tick true] with
  | none => simp [hrun] at hmap
  | some s1 =>
    simp only [hrun, Option.map_some', Option.some.injEq] at hmap
    obtain ⟨_, _, _, _, hsend, _⟩ := hcont _ s1 (by decide) hrun
    exact ⟨s1, rfl, hmap, hsend (by simp [hmap])⟩

end handler
